import Mathlib

/-!
Verification development for the websocket notification and RPC subsystem of
conseweb/stcd (file `rpcwebsocket.go`).  The Go code is shallowly embedded:
the notification router's subscription indices become a `RouterState` record
over `Finmap`/`Finset`, the per-client mirror sets become functions from
client identifiers to finite sets, and each router/update procedure is a
direct transcription of the corresponding Go function.  Channels and
goroutine identities are abstracted away: a websocket client is identified by
a natural number standing for its unique `quit` channel, and notification
emission is recorded as a list of `(client, notification)` pairs.
JSON marshalling (`btcjson.MarshalCmd`), which the Go code treats as a
fallible step, is modelled by an oracle `MarshalOk : Ntfn → Bool` giving the
(deterministic, content-dependent) outcome of marshalling each notification.
-/

namespace Stcd

/-- A transaction outpoint: `(tx-hash, output-index)`.  Hashes are abstracted
to naturals; equality is by value, as for `wire.OutPoint`. -/
structure OutPoint where
  hash : Nat
  index : Nat
deriving DecidableEq

/-- A linear order on outpoints (lexicographic), used only to fix a concrete
iteration order where Go ranges over a map keyed by outpoints. -/
instance : LinearOrder OutPoint :=
  LinearOrder.lift' (fun op => toLex (op.hash, op.index)) (by
    intro a b h
    cases a; cases b
    simpa [toLex, Prod.ext_iff, OutPoint.mk.injEq] using h)

/-- A websocket client identity.  The Go code keys all router maps by the
client's `quit` channel, a unique per-client value; we model it as a `Nat`. -/
abbrev ClientId := Nat

/-- The serialized form of a public key inside an `AddressPubKey`
(`ScriptAddress()` in the Go code): 33-byte compressed, 65-byte uncompressed,
or an unrecognized length. -/
inductive PubKeyForm
  | compressed (key : Nat)
  | uncompressed (key : Nat)
  | unknownLen (len : Nat)
deriving DecidableEq

/-- The classification of a decoded payment address, as produced by
`coinutil.DecodeAddress` / `txscript.ExtractPkScriptAddrs`.  `pubKey` also
carries the RIPEMD-160 digest of the key (`AddressPubKeyHash().Hash160()`),
used by `rescanBlock` as a fallback lookup. -/
inductive AddrKind
  | pubKeyHash (h : Nat)
  | scriptHash (h : Nat)
  | pubKey (form : PubKeyForm) (pkh : Nat)
  | otherKind
deriving DecidableEq

/-- A payment address: its encoded string form (`EncodeAddress()`), used as
the key of the router's watched-address index, and its classification. -/
structure Address where
  encoded : String
  kind : AddrKind
deriving DecidableEq

/-- A transaction input; only the previous outpoint is relevant here. -/
structure TxIn where
  previousOutPoint : OutPoint
deriving DecidableEq

/-- A transaction output.  `extractErr` records whether
`txscript.ExtractPkScriptAddrs` returned an error for the output's script;
`addrs` is the list of addresses it extracted (script parsing itself is an
external collaborator of this subsystem). -/
structure TxOut where
  value : Int
  extractErr : Bool
  addrs : List Address
deriving DecidableEq

/-- A transaction, with its hash, its index within its containing block
(`tx.Index()`), its hex serialization (`txHexString`), inputs and outputs. -/
structure Tx where
  sha : Nat
  index : Nat
  hex : String
  txIns : List TxIn
  txOuts : List TxOut
deriving DecidableEq

/-- A block: hash, parent hash, height, header timestamp, transactions. -/
structure Block where
  sha : Nat
  prev : Nat
  height : Int
  time : Int
  txs : List Tx
deriving DecidableEq

/-- `btcjson.BlockDetails` as built by the Go helper `blockDetails`. -/
structure BlockDetails where
  height : Int
  hash : Nat
  index : Nat
  time : Int
deriving DecidableEq

/-- Transcription of `blockDetails`: `nil` block gives `nil` details. -/
def blockDetails (blk : Option Block) (txIndex : Nat) : Option BlockDetails :=
  match blk with
  | none => none
  | some b => some ⟨b.height, b.sha, txIndex, b.time⟩

/-- The notifications this subsystem can emit, abstracted from their
marshalled JSON forms. -/
inductive Ntfn
  | recvTx (txHex : String) (details : Option BlockDetails)
  | redeemingTx (txHex : String) (details : Option BlockDetails)
  | txAccepted (txSha : Nat) (amount : Int)
  | txAcceptedVerbose (txSha : Nat)
  | blockConnectedN (hash : Nat) (height : Int) (time : Int)
  | blockDisconnectedN (hash : Nat) (height : Int) (time : Int)
  | rescanProgress (hash : Nat) (height : Int) (time : Int)
  | rescanFinished (hash : Nat) (height : Int) (time : Int)
deriving DecidableEq

/-- Marshalling oracle: whether `btcjson.MarshalCmd` succeeds on (the command
for) a given notification.  Marshalling is deterministic in the marshalled
value, so the oracle is a function of the notification content. -/
abbrev MarshalOk := Ntfn → Bool

/-- Transcription of `newRedeemingTxNotification` (sans marshalling). -/
def newRedeemingTxNtfn (txHex : String) (index : Nat) (blk : Option Block) : Ntfn :=
  .redeemingTx txHex (blockDetails blk index)

/-- Whether a notification is a `recvtx`. -/
def Ntfn.isRecvB : Ntfn → Bool
  | .recvTx _ _ => true
  | _ => false

/-- Whether a notification is a `redeemingtx`. -/
def Ntfn.isRedeemB : Ntfn → Bool
  | .redeemingTx _ _ => true
  | _ => false

/-! ## The notification router's state

`notificationHandler` owns: the `clients`, `blockNotifications` and
`txNotifications` maps (modelled as finite sets of client ids), and the
`watchedOutPoints` / `watchedAddrs` two-level maps (modelled as `Finmap`s to
finite sets).  Each `wsClient` additionally owns the mirror sets
`spentRequests` and `addrRequests` and a `verboseTxUpdates` flag; these live
in the client structs, so they are modelled as total functions from
`ClientId`. -/

structure RouterState where
  clients : Finset ClientId
  blockNotifications : Finset ClientId
  txNotifications : Finset ClientId
  watchedOutPoints : Finmap (fun _ : OutPoint => Finset ClientId)
  watchedAddrs : Finmap (fun _ : String => Finset ClientId)
  spentRequests : ClientId → Finset OutPoint
  addrRequests : ClientId → Finset String
  verboseTxUpdates : ClientId → Bool

/-- The set of clients watching outpoint `op` (`∅` when the key is absent). -/
def opClientsOf (st : RouterState) (op : OutPoint) : Finset ClientId :=
  (st.watchedOutPoints.lookup op).getD ∅

/-- The set of clients watching address `a` (`∅` when the key is absent). -/
def addrClientsOf (st : RouterState) (a : String) : Finset ClientId :=
  (st.watchedAddrs.lookup a).getD ∅

/-- One step of `addSpentRequests`' loop body: record the request in the
client's mirror set, then add the client to the (created-as-needed) inner
map for the outpoint. -/
def addSpentRequest (st : RouterState) (wsc : ClientId) (op : OutPoint) : RouterState :=
  let st' := { st with
    spentRequests := Function.update st.spentRequests wsc (insert op (st.spentRequests wsc)) }
  let cmap := (st'.watchedOutPoints.lookup op).getD ∅
  { st' with watchedOutPoints := st'.watchedOutPoints.insert op (insert wsc cmap) }

/-- Transcription of `(*wsNotificationManager).addSpentRequests`. -/
def addSpentRequests (st : RouterState) (wsc : ClientId) (ops : List OutPoint) : RouterState :=
  ops.foldl (fun s op => addSpentRequest s wsc op) st

/-- Transcription of `(*wsNotificationManager).removeSpentRequest`.  The
returned `Bool` records whether the "nonexistent spent request" warning was
logged.  The client's mirror entry is deleted first; then, if the outpoint
key is present, the client is removed from its inner map, the key being
deleted altogether when the inner map becomes empty. -/
def removeSpentRequest (st : RouterState) (wsc : ClientId) (op : OutPoint) :
    RouterState × Bool :=
  let st' := { st with
    spentRequests := Function.update st.spentRequests wsc ((st.spentRequests wsc).erase op) }
  match st'.watchedOutPoints.lookup op with
  | none => (st', true)
  | some notifyMap =>
      let notifyMap' := notifyMap.erase wsc
      if notifyMap' = ∅ then
        ({ st' with watchedOutPoints := st'.watchedOutPoints.erase op }, false)
      else
        ({ st' with watchedOutPoints := st'.watchedOutPoints.insert op notifyMap' }, false)

/-- One step of `addAddrRequests`' loop body. -/
def addAddrRequest (st : RouterState) (wsc : ClientId) (addr : String) : RouterState :=
  let st' := { st with
    addrRequests := Function.update st.addrRequests wsc (insert addr (st.addrRequests wsc)) }
  let cmap := (st'.watchedAddrs.lookup addr).getD ∅
  { st' with watchedAddrs := st'.watchedAddrs.insert addr (insert wsc cmap) }

/-- Transcription of `(*wsNotificationManager).addAddrRequests`. -/
def addAddrRequests (st : RouterState) (wsc : ClientId) (addrs : List String) : RouterState :=
  addrs.foldl (fun s a => addAddrRequest s wsc a) st

/-- Transcription of `(*wsNotificationManager).removeAddrRequest`; the `Bool`
records the "nonexistent addr request" warning. -/
def removeAddrRequest (st : RouterState) (wsc : ClientId) (addr : String) :
    RouterState × Bool :=
  let st' := { st with
    addrRequests := Function.update st.addrRequests wsc ((st.addrRequests wsc).erase addr) }
  match st'.watchedAddrs.lookup addr with
  | none => (st', true)
  | some cmap =>
      let cmap' := cmap.erase wsc
      if cmap' = ∅ then
        ({ st' with watchedAddrs := st'.watchedAddrs.erase addr }, false)
      else
        ({ st' with watchedAddrs := st'.watchedAddrs.insert addr cmap' }, false)

/-! ## Notification fan-out

Go iterates its maps in unspecified order; the model iterates the
corresponding `Finset`s in ascending client-id order (`Finset.sort`), which
fixes one admissible order.  All state effects proved below are
order-independent. -/

/-- The clients of `cmap` not yet notified, in iteration order: the Go loop
adds each such client to `wscNotified` and queues the notification to it. -/
def freshClients (cmap notified : Finset ClientId) : List ClientId :=
  (cmap.sort (· ≤ ·)).filter (fun c => c ∉ notified)

/-- The loop of `(*wsNotificationManager).notifyForTxIns` over the inputs of
one transaction, threading the router state, the per-transaction
`wscNotified` dedup set and the emitted notifications.  For an input whose
previous outpoint is watched: the `redeemingtx` notification is marshalled
(on failure the input is skipped with a log); then every watching client is
processed — with block context the matching spent request is removed via
`removeSpentRequest`, and the client is notified unless already notified for
this transaction. -/
def notifyForTxInsGo (mOk : MarshalOk) (tx : Tx) (blk : Option Block) :
    List TxIn → RouterState → Finset ClientId → List (ClientId × Ntfn) →
    RouterState × Finset ClientId × List (ClientId × Ntfn)
  | [], st, notified, acc => (st, notified, acc)
  | txIn :: rest, st, notified, acc =>
    match st.watchedOutPoints.lookup txIn.previousOutPoint with
    | none => notifyForTxInsGo mOk tx blk rest st notified acc
    | some cmap =>
      let n := newRedeemingTxNtfn tx.hex tx.index blk
      if mOk n then
        let st' :=
          if blk.isSome then
            (cmap.sort (· ≤ ·)).foldl
              (fun s c => (removeSpentRequest s c txIn.previousOutPoint).1) st
          else st
        notifyForTxInsGo mOk tx blk rest st' (notified ∪ cmap)
          (acc ++ (freshClients cmap notified).map (fun c => (c, n)))
      else
        notifyForTxInsGo mOk tx blk rest st notified acc

/-- Transcription of `(*wsNotificationManager).notifyForTxIns`: nothing to do
if nobody is watching outpoints, else run the input loop with an empty
`wscNotified` set. -/
def notifyForTxIns (mOk : MarshalOk) (st : RouterState) (tx : Tx) (blk : Option Block) :
    RouterState × List (ClientId × Ntfn) :=
  if st.watchedOutPoints = ∅ then (st, [])
  else
    let r := notifyForTxInsGo mOk tx blk tx.txIns st ∅ []
    (r.1, r.2.2)

/-- The inner loop of `notifyForTxOuts` over the addresses extracted from one
output (at output index `i`).  For a watched address, the `recvtx`
notification is marshalled (failure skips the address with a log); then each
watching client gets a spent-request auto-registered on the new outpoint
`(tx.sha, i)` via `addSpentRequest`, and is notified unless already notified
for this transaction. -/
def notifyOutAddrsGo (mOk : MarshalOk) (tx : Tx) (blk : Option Block) (i : Nat) :
    List Address → RouterState → Finset ClientId → List (ClientId × Ntfn) →
    RouterState × Finset ClientId × List (ClientId × Ntfn)
  | [], st, notified, acc => (st, notified, acc)
  | addr :: rest, st, notified, acc =>
    match st.watchedAddrs.lookup addr.encoded with
    | none => notifyOutAddrsGo mOk tx blk i rest st notified acc
    | some cmap =>
      let n := Ntfn.recvTx tx.hex (blockDetails blk tx.index)
      if mOk n then
        let st' := (cmap.sort (· ≤ ·)).foldl
          (fun s c => addSpentRequest s c ⟨tx.sha, i⟩) st
        notifyOutAddrsGo mOk tx blk i rest st' (notified ∪ cmap)
          (acc ++ (freshClients cmap notified).map (fun c => (c, n)))
      else
        notifyOutAddrsGo mOk tx blk i rest st notified acc

/-- The outer loop of `notifyForTxOuts` over the outputs of the transaction
(paired with their indices).  An output whose script-address extraction
errored is skipped. -/
def notifyForTxOutsGo (mOk : MarshalOk) (tx : Tx) (blk : Option Block) :
    List (Nat × TxOut) → RouterState → Finset ClientId → List (ClientId × Ntfn) →
    RouterState × Finset ClientId × List (ClientId × Ntfn)
  | [], st, notified, acc => (st, notified, acc)
  | (i, txOut) :: rest, st, notified, acc =>
    if txOut.extractErr then notifyForTxOutsGo mOk tx blk rest st notified acc
    else
      let r := notifyOutAddrsGo mOk tx blk i txOut.addrs st notified acc
      notifyForTxOutsGo mOk tx blk rest r.1 r.2.1 r.2.2

/-- Transcription of `(*wsNotificationManager).notifyForTxOuts`. -/
def notifyForTxOuts (mOk : MarshalOk) (st : RouterState) (tx : Tx) (blk : Option Block) :
    RouterState × List (ClientId × Ntfn) :=
  if st.watchedAddrs = ∅ then (st, [])
  else
    let r := notifyForTxOutsGo mOk tx blk tx.txOuts.enum st ∅ []
    (r.1, r.2.2)

/-- Transcription of `(*wsNotificationManager).notifyForTx`: scan the inputs
against watched outpoints, then the outputs against watched addresses. -/
def notifyForTx (mOk : MarshalOk) (st : RouterState) (tx : Tx) (blk : Option Block) :
    RouterState × List (ClientId × Ntfn) :=
  let r1 := if st.watchedOutPoints ≠ ∅ then notifyForTxIns mOk st tx blk else (st, [])
  let r2 := if r1.1.watchedAddrs ≠ ∅ then notifyForTxOuts mOk r1.1 tx blk else (r1.1, [])
  (r2.1, r1.2 ++ r2.2)

/-- The loop of `notifyForNewTx` over the mempool-tx subscribers.  `made`
records whether the verbose notification has already been marshalled
(`marshalledJSONVerbose != nil`).  For a verbose subscriber with no verbose
json yet, the raw-result build (`rawOk`) and then the verbose marshal are
attempted; failure of either returns, dropping the rest of the batch. -/
def notifyForNewTxGo (verbose : ClientId → Bool) (compactN verboseN : Ntfn)
    (rawOk : Bool) (mOk : MarshalOk) :
    List ClientId → Bool → List (ClientId × Ntfn) → List (ClientId × Ntfn)
  | [], _, acc => acc
  | c :: rest, made, acc =>
    if verbose c then
      if made then
        notifyForNewTxGo verbose compactN verboseN rawOk mOk rest made (acc ++ [(c, verboseN)])
      else if rawOk && mOk verboseN then
        notifyForNewTxGo verbose compactN verboseN rawOk mOk rest true (acc ++ [(c, verboseN)])
      else acc
    else
      notifyForNewTxGo verbose compactN verboseN rawOk mOk rest made (acc ++ [(c, compactN)])

/-- Transcription of `(*wsNotificationManager).notifyForNewTx`: the compact
`txaccepted` notification (tx hash plus summed output value) is marshalled
up front — failure drops the whole batch; the loop then serves each
subscriber its compact or verbose form.  `rawOk` is the outcome of
`createTxRawResult` (an external collaborator). -/
def notifyForNewTx (rawOk : Bool) (mOk : MarshalOk) (st : RouterState) (tx : Tx) :
    List (ClientId × Ntfn) :=
  let amount := (tx.txOuts.map (fun o => o.value)).sum
  let compactN := Ntfn.txAccepted tx.sha amount
  if mOk compactN then
    notifyForNewTxGo st.verboseTxUpdates compactN (Ntfn.txAcceptedVerbose tx.sha) rawOk mOk
      (st.txNotifications.sort (· ≤ ·)) false []
  else []

/-- Transcription of `notifyBlockConnected`: marshal once (failure drops the
whole notification), then queue to every block subscriber. -/
def notifyBlockConnected (mOk : MarshalOk) (clients : Finset ClientId) (blk : Block) :
    List (ClientId × Ntfn) :=
  let n := Ntfn.blockConnectedN blk.sha blk.height blk.time
  if mOk n then (clients.sort (· ≤ ·)).map (fun c => (c, n)) else []

/-- Transcription of `notifyBlockDisconnected` (including its own
skip-if-no-subscribers check). -/
def notifyBlockDisconnected (mOk : MarshalOk) (clients : Finset ClientId) (blk : Block) :
    List (ClientId × Ntfn) :=
  if clients = ∅ then []
  else
    let n := Ntfn.blockDisconnectedN blk.sha blk.height blk.time
    if mOk n then (clients.sort (· ≤ ·)).map (fun c => (c, n)) else []

/-! ## The router's message loop -/

/-- The tagged union carried by the router's channel: the event and control
variants consumed by `notificationHandler`. -/
inductive RouterMsg
  | blockConnected (blk : Block)
  | blockDisconnected (blk : Block)
  | txAcceptedByMempool (isNew : Bool) (tx : Tx)
  | registerBlocks (c : ClientId)
  | unregisterBlocks (c : ClientId)
  | registerClient (c : ClientId)
  | unregisterClient (c : ClientId)
  | registerSpent (c : ClientId) (ops : List OutPoint)
  | unregisterSpent (c : ClientId) (op : OutPoint)
  | registerAddr (c : ClientId) (addrs : List String)
  | unregisterAddr (c : ClientId) (addr : String)
  | registerNewMempoolTxs (c : ClientId)
  | unregisterNewMempoolTxs (c : ClientId)

/-- One iteration of `notificationHandler`'s dispatch on a received message,
returning the updated indices and the notifications queued to clients.
`rawOk` and `mOk` are the outcomes of the external marshalling steps. -/
def handleMsg (rawOk : Bool) (mOk : MarshalOk) (msg : RouterMsg) (st : RouterState) :
    RouterState × List (ClientId × Ntfn) :=
  match msg with
  | .blockConnected blk =>
    let r :=
      if st.watchedOutPoints ≠ ∅ ∨ st.watchedAddrs ≠ ∅ then
        blk.txs.foldl (fun (p : RouterState × List (ClientId × Ntfn)) tx =>
          let q := notifyForTx mOk p.1 tx (some blk)
          (q.1, p.2 ++ q.2)) (st, [])
      else (st, [])
    if r.1.blockNotifications ≠ ∅ then
      (r.1, r.2 ++ notifyBlockConnected mOk r.1.blockNotifications blk)
    else r
  | .blockDisconnected blk =>
    (st, notifyBlockDisconnected mOk st.blockNotifications blk)
  | .txAcceptedByMempool isNew tx =>
    let acc :=
      if isNew ∧ st.txNotifications ≠ ∅ then notifyForNewTx rawOk mOk st tx else []
    let r := notifyForTx mOk st tx none
    (r.1, acc ++ r.2)
  | .registerBlocks c => ({ st with blockNotifications := insert c st.blockNotifications }, [])
  | .unregisterBlocks c => ({ st with blockNotifications := st.blockNotifications.erase c }, [])
  | .registerClient c => ({ st with clients := insert c st.clients }, [])
  | .unregisterClient c =>
    let st1 := { st with
      blockNotifications := st.blockNotifications.erase c
      txNotifications := st.txNotifications.erase c }
    let st2 := ((st1.spentRequests c).sort (· ≤ ·)).foldl
      (fun s op => (removeSpentRequest s c op).1) st1
    let st3 := ((st2.addrRequests c).sort (· ≤ ·)).foldl
      (fun s a => (removeAddrRequest s c a).1) st2
    ({ st3 with clients := st3.clients.erase c }, [])
  | .registerSpent c ops => (addSpentRequests st c ops, [])
  | .unregisterSpent c op => ((removeSpentRequest st c op).1, [])
  | .registerAddr c addrs => (addAddrRequests st c addrs, [])
  | .unregisterAddr c addr => ((removeAddrRequest st c addr).1, [])
  | .registerNewMempoolTxs c => ({ st with txNotifications := insert c st.txNotifications }, [])
  | .unregisterNewMempoolTxs c => ({ st with txNotifications := st.txNotifications.erase c }, [])

/-! ## The websocket client: message handling and sends -/

/-- The mutable flags of a `wsClient` relevant to message handling. -/
structure WsClientState where
  authenticated : Bool
  isAdmin : Bool
  disconnected : Bool
deriving DecidableEq

/-- The server-side data `handleMessage` consults: the two precomputed
credential digests, and the limited-user method allow-list.  The allow-list
(`rpcLimited`) lives in `rpcserver.go`, which is not among the sources;
modelled from the spec: "Non-admin clients are restricted to a fixed
allow-list of methods", kept abstract as a finite set of method names. -/
structure ServerAuth where
  authsha : Nat
  limitauthsha : Nat
  rpcLimited : Finset String

/-- The outcome of `parseCmd` on an incoming request: a parse error, an
`authenticate` command (carrying the SHA-256 digest of
`"Basic " + base64(username:passphrase)` — credentials are modelled at the
digest level), or some other recognized command. -/
inductive ParseOutcome
  | cmdParseErr (method : String)
  | auth (digest : Nat)
  | cmd (method : String)
deriving DecidableEq

/-- The method name of a request (`request.Method`); `parseCmd` yields an
`AuthenticateCmd` exactly for the method `"authenticate"`. -/
def ParseOutcome.methodName : ParseOutcome → String
  | .cmdParseErr m => m
  | .auth _ => "authenticate"
  | .cmd m => m

/-- A JSON-RPC request after `json.Unmarshal`: its id (JSON `null` is
`none`) and the outcome of parsing it into a concrete command. -/
structure Request where
  id : Option Nat
  parsed : ParseOutcome
deriving DecidableEq

/-- An incoming websocket frame: either not valid JSON-RPC at all
(`json.Unmarshal` fails) or an unmarshalled request. -/
inductive InMsg
  | malformed
  | req (r : Request)
deriving DecidableEq

/-- The replies `handleMessage` can send (via `SendMessage`) or the
dispatch it can perform, abstracted from their marshalled forms. -/
inductive Reply
  | emptySuccess (id : Option Nat)
  | parseFailure
  | limitedNotAuthorized (id : Option Nat)
  | cmdError (id : Option Nat)
  | dispatched (id : Option Nat) (method : String) (isAsync : Bool)
deriving DecidableEq

/-- The websocket method set handled asynchronously (`wsAsyncHandlers`). -/
def wsAsyncHandlers : Finset String := {"rescan"}

/-- Transcription of `(*wsClient).handleMessage`.  While unauthenticated:
any unmarshalling failure, command parse failure, or non-`authenticate`
command disconnects; an `authenticate` whose digest matches neither stored
hash disconnects; on a match, the client becomes authenticated (admin iff
the admin digest matched) and an empty success is sent.  Once
authenticated: malformed JSON gets a parse-error reply; a request with a
null id gets no reply; a non-admin request for a method outside the
allow-list gets an authorization error; a command parse failure gets an
error reply; a further `authenticate` disconnects; anything else is
dispatched (asynchronously for methods in `wsAsyncHandlers`). -/
def handleMessage (cfg : ServerAuth) (c : WsClientState) (m : InMsg) :
    WsClientState × List Reply :=
  if !c.authenticated then
    match m with
    | .malformed => ({ c with disconnected := true }, [])
    | .req r =>
      match r.parsed with
      | .cmdParseErr _ => ({ c with disconnected := true }, [])
      | .cmd _ => ({ c with disconnected := true }, [])
      | .auth digest =>
        if digest ≠ cfg.authsha ∧ digest ≠ cfg.limitauthsha then
          ({ c with disconnected := true }, [])
        else
          ({ c with authenticated := true, isAdmin := digest == cfg.authsha },
            [Reply.emptySuccess r.id])
  else
    match m with
    | .malformed => (c, [Reply.parseFailure])
    | .req r =>
      if r.id = none then (c, [])
      else if !c.isAdmin ∧ r.parsed.methodName ∉ cfg.rpcLimited then
        (c, [Reply.limitedNotAuthorized r.id])
      else
        match r.parsed with
        | .cmdParseErr _ => (c, [Reply.cmdError r.id])
        | .auth _ => ({ c with disconnected := true }, [])
        | .cmd meth =>
          (c, [Reply.dispatched r.id meth (decide (meth ∈ wsAsyncHandlers))])

/-- Transcription of `(*wsClient).SendMessage`.  Marshalled messages are
abstracted to naturals; `sendChan` is the queue of pending responses.  The
function has no error result (its Go signature returns nothing); it returns
the updated queue together with the value this call delivers on the
caller-supplied done channel (`none` when no done channel was supplied or
nothing was sent on it by this call).  If the client is disconnected the
message is discarded and `false` is sent on the done channel if present;
otherwise the response is queued. -/
def SendMessage (disconnected : Bool) (sendChan : List Nat) (msg : Nat)
    (hasDoneChan : Bool) : List Nat × Option Bool :=
  if disconnected then
    if hasDoneChan then (sendChan, some false) else (sendChan, none)
  else
    (sendChan ++ [msg], none)

/-- The possible results of `(*wsNotificationManager).NumClients`.  The Go
function selects between (a) receiving from `m.numClients` — ready exactly
while `notificationHandler` is still blocked in its own select, which arms
the send `m.numClients <- len(clients)` — yielding the current client
count, and (b) receiving from `m.quit` — ready once `quit` is closed —
leaving the default `n = 0`.  When both are ready Go picks one at random,
so the model returns the set of possible results. -/
def numClientsPossible (handlerReady : Bool) (clientCount : Nat) (quitClosed : Bool) :
    Finset Nat :=
  (if handlerReady then {clientCount} else ∅) ∪ (if quitClosed then {0} else ∅)

/-! ## The rescan engine -/

/-- Transcription of `rescanKeys`: the lookup keys built by `handleRescan`
from the request's addresses and outpoints. -/
structure RescanKeys where
  fallbacks : Finset String
  pubKeyHashes : Finset Nat
  scriptHashes : Finset Nat
  compressedPubKeys : Finset Nat
  uncompressedPubKeys : Finset Nat
  unspent : Finset OutPoint
deriving DecidableEq

/-- The address-matching switch in `rescanBlock`'s output loop: P2PKH and
P2SH by 20-byte digest; pubkeys by 33/65-byte serialization, falling back to
the pubkey's implicit P2PKH digest; pubkeys of unrecognized length are
skipped with a warning; any other address kind is matched against the
fallback set by encoded string. -/
def rescanAddrMatch (lookups : RescanKeys) (a : Address) : Bool :=
  match a.kind with
  | .pubKeyHash h => decide (h ∈ lookups.pubKeyHashes)
  | .scriptHash h => decide (h ∈ lookups.scriptHashes)
  | .pubKey form pkh =>
    match form with
    | .compressed key =>
        decide (key ∈ lookups.compressedPubKeys) || decide (pkh ∈ lookups.pubKeyHashes)
    | .uncompressed key =>
        decide (key ∈ lookups.uncompressedPubKeys) || decide (pkh ∈ lookups.pubKeyHashes)
    | .unknownLen _ => false
  | .otherKind => decide (a.encoded ∈ lookups.fallbacks)

/-- Result of one of `rescanBlock`'s loops: the threaded unspent set, the
notifications queued so far, the per-transaction dedup flag
(`spentNotified` / `recvNotified`), and whether the loop returned early
(aborting the rest of `rescanBlock`). -/
structure RBRes where
  unspent : Finset OutPoint
  ntfns : List Ntfn
  flag : Bool
  aborted : Bool

/-- The input loop of `rescanBlock` for one transaction.  An input spending
an unspent outpoint deletes it from the set first; the `redeemingtx`
notification is then built unless one was already sent for this transaction
(`spentNotified`); a marshalling failure logs and skips the notification; a
queueing failure (client disconnected, `quit`) aborts the rescan of the
block. -/
def rescanTxIns (mOk : MarshalOk) (quit : Bool) (tx : Tx) (blk : Block) :
    List TxIn → Finset OutPoint → List Ntfn → Bool → RBRes
  | [], unspent, acc, spentNotified => ⟨unspent, acc, spentNotified, false⟩
  | txin :: rest, unspent, acc, spentNotified =>
    if txin.previousOutPoint ∈ unspent then
      let unspent' := unspent.erase txin.previousOutPoint
      if spentNotified then rescanTxIns mOk quit tx blk rest unspent' acc spentNotified
      else
        let n := newRedeemingTxNtfn tx.hex tx.index (some blk)
        if mOk n then
          if quit then ⟨unspent', acc, spentNotified, true⟩
          else rescanTxIns mOk quit tx blk rest unspent' (acc ++ [n]) true
        else rescanTxIns mOk quit tx blk rest unspent' acc spentNotified
    else rescanTxIns mOk quit tx blk rest unspent acc spentNotified

/-- The inner loop of `rescanBlock`'s output scan over the addresses of the
output at index `idx`.  A matching address inserts the new outpoint into the
unspent set first; the `recvtx` notification is then built unless one was
already sent for this transaction (`recvNotified`); a marshalling failure
returns from `rescanBlock`; so does a queueing failure. -/
def rescanOutAddrs (mOk : MarshalOk) (quit : Bool) (lookups : RescanKeys)
    (tx : Tx) (blk : Block) (idx : Nat) :
    List Address → Finset OutPoint → List Ntfn → Bool → RBRes
  | [], unspent, acc, recvNotified => ⟨unspent, acc, recvNotified, false⟩
  | addr :: rest, unspent, acc, recvNotified =>
    if rescanAddrMatch lookups addr then
      let unspent' := insert (⟨tx.sha, idx⟩ : OutPoint) unspent
      if recvNotified then
        rescanOutAddrs mOk quit lookups tx blk idx rest unspent' acc recvNotified
      else
        let n := Ntfn.recvTx tx.hex (blockDetails (some blk) tx.index)
        if mOk n then
          if quit then ⟨unspent', acc, recvNotified, true⟩
          else rescanOutAddrs mOk quit lookups tx blk idx rest unspent' (acc ++ [n]) true
        else ⟨unspent', acc, recvNotified, true⟩
    else rescanOutAddrs mOk quit lookups tx blk idx rest unspent acc recvNotified

/-- The output loop of `rescanBlock` for one transaction.  Note that unlike
the router's `notifyForTxOuts`, `rescanBlock` ignores the error result of
`ExtractPkScriptAddrs` and scans whatever addresses were extracted. -/
def rescanTxOuts (mOk : MarshalOk) (quit : Bool) (lookups : RescanKeys)
    (tx : Tx) (blk : Block) :
    List (Nat × TxOut) → Finset OutPoint → List Ntfn → Bool → RBRes
  | [], unspent, acc, recvNotified => ⟨unspent, acc, recvNotified, false⟩
  | (idx, txout) :: rest, unspent, acc, recvNotified =>
    let r := rescanOutAddrs mOk quit lookups tx blk idx txout.addrs unspent acc recvNotified
    if r.aborted then r
    else rescanTxOuts mOk quit lookups tx blk rest r.unspent r.ntfns r.flag

/-- `rescanBlock`'s per-transaction body: inputs, then outputs, with fresh
dedup flags. -/
def rescanTx (mOk : MarshalOk) (quit : Bool) (lookups : RescanKeys)
    (blk : Block) (tx : Tx) (unspent : Finset OutPoint) (acc : List Ntfn) : RBRes :=
  let ri := rescanTxIns mOk quit tx blk tx.txIns unspent acc false
  if ri.aborted then ri
  else rescanTxOuts mOk quit lookups tx blk tx.txOuts.enum ri.unspent ri.ntfns false

/-- The transaction loop of `rescanBlock`. -/
def rescanBlockGo (mOk : MarshalOk) (quit : Bool) (lookups : RescanKeys) (blk : Block) :
    List Tx → Finset OutPoint → List Ntfn → RBRes
  | [], unspent, acc => ⟨unspent, acc, false, false⟩
  | tx :: rest, unspent, acc =>
    let r := rescanTx mOk quit lookups blk tx unspent acc
    if r.aborted then r
    else rescanBlockGo mOk quit lookups blk rest r.unspent r.ntfns

/-- Transcription of `rescanBlock`: rescan every transaction of the block,
starting from the unspent set in `lookups`; an early return only truncates
processing (the Go function returns nothing).  Result: the final unspent set
and the notifications queued to the client. -/
def rescanBlock (mOk : MarshalOk) (quit : Bool) (lookups : RescanKeys) (blk : Block) :
    Finset OutPoint × List Ntfn :=
  let r := rescanBlockGo mOk quit lookups blk blk.txs lookups.unspent []
  (r.unspent, r.ntfns)

/-- The notification-free maintenance of the unspent set for one
transaction: delete every input's previous outpoint, then insert the
outpoint of every output matching a rescan key. -/
def updateUnspentTx (lookups : RescanKeys) (unspent : Finset OutPoint) (tx : Tx) :
    Finset OutPoint :=
  let u1 := tx.txIns.foldl (fun u txin => u.erase txin.previousOutPoint) unspent
  tx.txOuts.enum.foldl (fun u p =>
    p.2.addrs.foldl
      (fun u' a => if rescanAddrMatch lookups a then insert (⟨tx.sha, p.1⟩ : OutPoint) u' else u') u)
    u1

/-- The notification-free maintenance of the unspent set over a block. -/
def updateUnspentBlock (lookups : RescanKeys) (blk : Block) : Finset OutPoint :=
  blk.txs.foldl (updateUnspentTx lookups) lookups.unspent

/-! ## The rescan main loop (`handleRescan`) -/

/-- Errors from the chain store's block fetch: the sentinel
`database.ErrBlockShaMissing`, or any other error. -/
inductive DbFetchErr
  | shaMissing
  | other (msg : String)
deriving DecidableEq

/-- The message text of a block-fetch error. -/
def DbFetchErr.msg : DbFetchErr → String
  | .shaMissing => "block sha missing"
  | .other m => m

/-- The chain-store operations the rescan loop uses.  Modelled from the
spec ("block-by-hash, block-hash-by-height, height ranges, best block"):
the `database` package is not among the sources. -/
structure RescanDb where
  fetchHeightRange : Int → Int → Except String (List Nat)
  fetchBlockBySha : Nat → Except DbFetchErr Block
  newestSha : Except String Nat

/-- Modelled from the spec: the sentinel end height meaning "until tip"
(`database.AllShas`; the `database` package is not among the sources).  Its
only uses are equality comparisons against resolved block heights. -/
def allShas : Int := 2 ^ 62

/-- The JSON-RPC errors `handleRescan` can return. -/
inductive RpcErr
  | database (msg : String)
  | reorganize
deriving DecidableEq

/-- The result of the rescan loop.  `ok` carries the notifications queued to
the requesting client and whether the client was upgraded to live
notifications (the register calls on the pause path); `nilDeref` is the
run-time panic of dereferencing the nil `lastBlockHash` / `lastBlock` when
building the `rescanfinished` notification. -/
inductive RescanOutcome
  | ok (ntfns : List Ntfn) (registered : Bool)
  | rpcError (e : RpcErr)
  | nilDeref
  | fuelOut
deriving DecidableEq

/-- The code after the fetch loop: build `rescanfinished` from
`lastBlockHash.String()` and `lastBlock.Height()`/timestamp — a nil
dereference when no block was rescanned — marshal it (failure only logs),
queue it discarding any error, and return a null result. -/
def rescanFinish (mOk : MarshalOk) (acc : List Ntfn) (lastBlockHash : Option Nat)
    (lastBlock : Option Block) (registered : Bool) : RescanOutcome :=
  match lastBlockHash, lastBlock with
  | some h, some b =>
    let n := Ntfn.rescanFinished h b.height b.time
    if mOk n then .ok (acc ++ [n]) registered else .ok acc registered
  | _, _ => .nilDeref

/-- Transcription of `descendantBlock`: `Reorganize` unless the fetched
block's parent hash equals the previously-rescanned hash. -/
def descendantBlock (prevHash : Nat) (curBlock : Block) : Option RpcErr :=
  if curBlock.prev ≠ prevHash then some .reorganize else none

/-- Transcription of `recoverFromReorg`. -/
def recoverFromReorg (db : RescanDb) (minBlock maxBlock : Int)
    (lastBlock : Option Nat) : Except RpcErr (List Nat) :=
  match db.fetchHeightRange minBlock maxBlock with
  | .error e => .error (.database e)
  | .ok hashList =>
    match lastBlock, hashList with
    | none, _ => .ok hashList
    | some _, [] => .ok hashList
    | some lastHash, h0 :: rest =>
      match db.fetchBlockBySha h0 with
      | .error e => .error (.database e.msg)
      | .ok blk =>
        match descendantBlock lastHash blk with
        | some e => .error e
        | none => .ok (h0 :: rest)

/-- The environment of one rescan run: the chain store, whether the
requesting client is disconnected (constant over the run: the model covers
clients that stay connected or were disconnected from the start), the
10-second progress-ticker poll outcome per processed block, and the
marshalling oracle. -/
structure RescanEnv where
  db : RescanDb
  quit : Bool
  tickAt : Nat → Bool
  mOk : MarshalOk

/-- Control position inside `handleRescan`'s nested loops: at the top of the
`fetchRange` loop, or inside `loopHashList` at index `i` (the target of the
reorg-recovery `goto`). -/
inductive RescanMode
  | fetch
  | scan (hashList : List Nat) (i : Nat)

/-- Transcription of `handleRescan`'s `fetchRange` / `loopHashList` loops,
with explicit fuel (the Go loop need not terminate: an open-ended rescan can
keep refetching).  Arguments after the mode: `minBlock`, `maxBlock`, the
previously-rescanned block hash and block, the lookup keys (whose unspent
set is mutated by `rescanBlock`), the notifications queued so far, and the
count of blocks processed (indexing the ticker oracle). -/
def rescanLoop (env : RescanEnv) :
    Nat → RescanMode → Int → Int → Option Nat → Option Block →
    RescanKeys → List Ntfn → Nat → RescanOutcome
  | 0, _, _, _, _, _, _, _, _ => .fuelOut
  | fuel + 1, .fetch, minBlock, maxBlock, lastBlockHash, lastBlock, lookups, acc, steps =>
    if minBlock < maxBlock then
      match env.db.fetchHeightRange minBlock maxBlock with
      | .error e => .rpcError (.database e)
      | .ok hashList =>
        if hashList.isEmpty then
          if maxBlock ≠ allShas then rescanFinish env.mOk acc lastBlockHash lastBlock false
          else
            match env.db.newestSha with
            | .error e => .rpcError (.database e)
            | .ok curHash =>
              if lastBlockHash = none ∨ lastBlockHash = some curHash then
                rescanFinish env.mOk acc lastBlockHash lastBlock true
              else
                rescanLoop env fuel .fetch minBlock maxBlock lastBlockHash lastBlock
                  lookups acc steps
        else
          rescanLoop env fuel (.scan hashList 0) minBlock maxBlock lastBlockHash lastBlock
            lookups acc steps
    else rescanFinish env.mOk acc lastBlockHash lastBlock false
  | fuel + 1, .scan hashList i, minBlock, maxBlock, lastBlockHash, lastBlock, lookups, acc, steps =>
    match hashList.get? i with
    | none =>
      rescanLoop env fuel .fetch (minBlock + hashList.length) maxBlock lastBlockHash lastBlock
        lookups acc steps
    | some hsh =>
      match env.db.fetchBlockBySha hsh with
      | .error (.other m) => .rpcError (.database m)
      | .error .shaMissing =>
        if maxBlock ≠ allShas then .rpcError .reorganize
        else
          match recoverFromReorg env.db (minBlock + i) maxBlock lastBlockHash with
          | .error e => .rpcError e
          | .ok hashList' =>
            if hashList'.isEmpty then rescanFinish env.mOk acc lastBlockHash lastBlock false
            else
              rescanLoop env fuel (.scan hashList' 0) (minBlock + i) maxBlock
                lastBlockHash lastBlock lookups acc steps
      | .ok blk =>
        let descErr : Option RpcErr :=
          match i, lastBlockHash with
          | 0, some lastHash => descendantBlock lastHash blk
          | _, _ => none
        match descErr with
        | some e => .rpcError e
        | none =>
          if env.quit then .ok acc false
          else
            let r := rescanBlock env.mOk env.quit lookups blk
            let lookups' := { lookups with unspent := r.1 }
            let acc' := acc ++ r.2
            if env.tickAt steps then
              let n := Ntfn.rescanProgress hsh blk.height blk.time
              if env.mOk n then
                if env.quit then .ok (acc' ++ [n]) false
                else
                  rescanLoop env fuel (.scan hashList (i + 1)) minBlock maxBlock
                    (some blk.sha) (some blk) lookups' (acc' ++ [n]) (steps + 1)
              else
                rescanLoop env fuel (.scan hashList (i + 1)) minBlock maxBlock
                  (some blk.sha) (some blk) lookups' acc' (steps + 1)
            else
              rescanLoop env fuel (.scan hashList (i + 1)) minBlock maxBlock
                (some blk.sha) (some blk) lookups' acc' (steps + 1)

/-- The core of `handleRescan` after the request's outpoints and addresses
have been decoded into `lookups` and the begin/end blocks resolved to
heights `minBlock` / `maxBlock` (`maxBlock = allShas` when no end block was
given): run the fetch loop with no previously-rescanned block, then emit
`rescanfinished`. -/
def handleRescanCore (env : RescanEnv) (lookups : RescanKeys) (fuel : Nat)
    (minBlock maxBlock : Int) : RescanOutcome :=
  rescanLoop env fuel .fetch minBlock maxBlock none none lookups [] 0

/-- The mirror invariant between the router's two-level indices and the
clients' request sets (spec §8): every client's `spentRequests` /
`addrRequests` set holds exactly the keys whose inner map holds the
client. -/
def MirrorInv (st : RouterState) : Prop :=
  (∀ c op, op ∈ st.spentRequests c ↔ c ∈ opClientsOf st op) ∧
  (∀ c a, a ∈ st.addrRequests c ↔ c ∈ addrClientsOf st a)

/-! ## Concrete instances used by witnesses and counterexamples -/

/-- A marshalling oracle that always succeeds. -/
def marshalAlwaysOk : MarshalOk := fun _ => true

/-- A marshalling oracle that always fails. -/
def marshalNever : MarshalOk := fun _ => false

/-- A marshalling oracle failing exactly on verbose mempool notifications. -/
def failVerboseMarshal : MarshalOk := fun n =>
  match n with
  | .txAcceptedVerbose _ => false
  | _ => true

/-- A marshalling oracle failing exactly on `redeemingtx` notifications. -/
def failRedeemMarshal : MarshalOk := fun n =>
  match n with
  | .redeemingTx _ _ => false
  | _ => true

/-- The router state with no clients and no subscriptions. -/
def emptyRouter : RouterState where
  clients := ∅
  blockNotifications := ∅
  txNotifications := ∅
  watchedOutPoints := ∅
  watchedAddrs := ∅
  spentRequests := fun _ => ∅
  addrRequests := fun _ => ∅
  verboseTxUpdates := fun _ => false

/-- A sample outpoint. -/
def op0 : OutPoint := ⟨5, 0⟩

/-- A transaction with no inputs and one output of value 7. -/
def demoTx : Tx where
  sha := 100
  index := 0
  hex := "aa"
  txIns := []
  txOuts := [{ value := 7, extractErr := false, addrs := [] }]

/-- A transaction whose single input spends `op0`. -/
def spendTx : Tx where
  sha := 101
  index := 1
  hex := "bb"
  txIns := [⟨op0⟩]
  txOuts := []

/-- A sample block containing `spendTx`. -/
def demoBlock : Block where
  sha := 200
  prev := 199
  height := 10
  time := 1700000000
  txs := [spendTx]

/-- A router state where clients 1 and 2 subscribe to mempool transactions
and client 1 wants verbose updates. -/
def newTxDemoState : RouterState :=
  { emptyRouter with
    clients := {1, 2}
    txNotifications := {1, 2}
    verboseTxUpdates := fun c => c == 1 }

/-- A router state where outpoint `op0` is already registered for client 1
(mirror entry included). -/
def dupRegState : RouterState :=
  { emptyRouter with
    clients := {1}
    watchedOutPoints := (∅ : Finmap fun _ : OutPoint => Finset ClientId).insert op0 {1}
    spentRequests := fun c => if c = 1 then {op0} else ∅ }

/-- An authenticated admin client. -/
def authedClient : WsClientState where
  authenticated := true
  isAdmin := true
  disconnected := false

/-- A freshly connected, unauthenticated client. -/
def freshClient : WsClientState where
  authenticated := false
  isAdmin := false
  disconnected := false

/-- Sample server credentials: admin digest 10, limited digest 20, empty
allow-list. -/
def demoAuth : ServerAuth where
  authsha := 10
  limitauthsha := 20
  rpcLimited := ∅

/-- A sample address of unrecognized kind. -/
def demoAddr : Address where
  encoded := "x"
  kind := .otherKind

/-- Rescan lookup keys watching the P2PKH digest 3 and the outpoint `op0`. -/
def demoKeys : RescanKeys where
  fallbacks := ∅
  pubKeyHashes := {3}
  scriptHashes := ∅
  compressedPubKeys := ∅
  uncompressedPubKeys := ∅
  unspent := {op0}

/-- A transaction spending `op0` whose output 0 pays the watched P2PKH. -/
def rescanDemoTx : Tx where
  sha := 102
  index := 0
  hex := "cc"
  txIns := [⟨op0⟩]
  txOuts := [{ value := 3, extractErr := false,
               addrs := [{ encoded := "addr3", kind := .pubKeyHash 3 }] }]

/-- A block containing `rescanDemoTx`. -/
def rescanDemoBlock : Block where
  sha := 201
  prev := 200
  height := 11
  time := 1700000100
  txs := [rescanDemoTx]

/-! # Theorems

One theorem per claim of the specification, preceded by helper lemmas. -/

/-- C1: when a rescan's begin and end blocks resolve to the same height
(`minBlock = maxBlock`), the `fetchRange` loop is never entered, so zero
per-block notifications are emitted; but the finishing code then builds the
`rescanfinished` notification from the nil `lastBlockHash` / `lastBlock`
pointers — a run-time nil dereference (panic) — instead of emitting
`rescanfinished` with that block's hash, height and timestamp and returning
a null result. -/
theorem rescan_equal_range_nil_deref (env : RescanEnv) (lookups : RescanKeys)
    (fuel : Nat) (m : Int) :
    handleRescanCore env lookups (fuel + 1) m m = RescanOutcome.nilDeref := by
  simp [handleRescanCore, rescanLoop, rescanFinish]

/-- C8: `SendMessage` on a client whose disconnected flag is set discards
the message — the send queue is unchanged — and sends `false` on the done
channel exactly when one was supplied.  No error is reported in this or any
other case: the function's result type (like its Go signature) carries no
error component. -/
theorem sendmessage_disconnected_discards (sendChan : List Nat) (msg : Nat)
    (hasDoneChan : Bool) :
    SendMessage true sendChan msg hasDoneChan
      = (sendChan, if hasDoneChan then some false else none) := by
  cases hasDoneChan <;> simp [SendMessage]

/-- C10 counterexample: with the quit channel closed but
`notificationHandler` not yet terminated (its send of the client count is
still armed in its select), a `NumClients` call can pair with that send and
return the live client count — here 5, not 0. -/
theorem numclients_after_quit_counterexample :
    5 ∈ numClientsPossible true 5 true ∧ (5 : Nat) ≠ 0 := by
  constructor
  · decide
  · decide

/-- C10 (amended): once the quit channel is closed *and* the notification
handler has terminated — which closing quit eventually forces — every
`NumClients` call returns 0, regardless of how many clients were
registered, so `WebsocketHandler`'s connection-cap check compares against 0
once shutdown completes. -/
theorem numclients_zero_after_shutdown (clientCount : Nat) :
    numClientsPossible false clientCount true = {0} := by
  simp [numClientsPossible]

/-- The mempool subscribers of `newTxDemoState` iterate as `[1, 2]`. -/
theorem newTxDemo_sort : newTxDemoState.txNotifications.sort (· ≤ ·) = [1, 2] := by
  have h : newTxDemoState.txNotifications = insert 1 {2} := rfl
  rw [h, Finset.sort_insert, Finset.sort_singleton]
  · decide
  · decide

/-- C4 counterexample: in `notifyForNewTx`, when marshalling the verbose
notification for (verbose) client 1 fails, the whole batch is aborted: the
non-verbose client 2 — whose own (compact) notification marshalled fine —
receives nothing, contradicting "the remaining notifications of the same
batch are still attempted". -/
theorem marshal_failure_batch_counterexample :
    notifyForNewTx true failVerboseMarshal newTxDemoState demoTx = [] ∧
    2 ∈ newTxDemoState.txNotifications ∧
    newTxDemoState.verboseTxUpdates 2 = false ∧
    failVerboseMarshal (Ntfn.txAccepted demoTx.sha 7) = true := by
  refine ⟨?_, by decide, by decide, by decide⟩
  simp only [notifyForNewTx, newTxDemo_sort]
  rfl

/-! ## Helper lemmas on the subscription operations -/

/-- `addSpentRequest` unfolded as a single record update. -/
theorem addSpentRequest_eq (st : RouterState) (c : ClientId) (op : OutPoint) :
    addSpentRequest st c op
      = { st with
          spentRequests :=
            Function.update st.spentRequests c (insert op (st.spentRequests c))
          watchedOutPoints :=
            st.watchedOutPoints.insert op (insert c (opClientsOf st op)) } := rfl

/-- `addAddrRequest` unfolded as a single record update. -/
theorem addAddrRequest_eq (st : RouterState) (c : ClientId) (a : String) :
    addAddrRequest st c a
      = { st with
          addrRequests :=
            Function.update st.addrRequests c (insert a (st.addrRequests c))
          watchedAddrs :=
            st.watchedAddrs.insert a (insert c (addrClientsOf st a)) } := rfl

/-- The fields of the state after `removeSpentRequest`: everything but the
spent-request mirror and the watched-outpoint index is unchanged, and the
mirror entry of the client is erased. -/
theorem removeSpentRequest_fields (st : RouterState) (c : ClientId) (op : OutPoint) :
    (removeSpentRequest st c op).1.clients = st.clients ∧
    (removeSpentRequest st c op).1.blockNotifications = st.blockNotifications ∧
    (removeSpentRequest st c op).1.txNotifications = st.txNotifications ∧
    (removeSpentRequest st c op).1.watchedAddrs = st.watchedAddrs ∧
    (removeSpentRequest st c op).1.addrRequests = st.addrRequests ∧
    (removeSpentRequest st c op).1.verboseTxUpdates = st.verboseTxUpdates ∧
    (removeSpentRequest st c op).1.spentRequests
      = Function.update st.spentRequests c ((st.spentRequests c).erase op) := by
  unfold removeSpentRequest
  dsimp only
  rcases h : st.watchedOutPoints.lookup op with _ | s <;> simp only [h]
  all_goals first
  | (split <;> simp)
  | simp

/-- The watched-outpoint index after `removeSpentRequest`, characterized by
lookup: at the removed outpoint the client set loses `c` (the key vanishing
when this empties it); other keys are untouched. -/
theorem removeSpentRequest_lookup (st : RouterState) (c : ClientId) (op : OutPoint)
    (x : OutPoint) :
    (removeSpentRequest st c op).1.watchedOutPoints.lookup x
      = if x = op then
          (match st.watchedOutPoints.lookup op with
           | none => none
           | some s => if s.erase c = ∅ then none else some (s.erase c))
        else st.watchedOutPoints.lookup x := by
  unfold removeSpentRequest
  dsimp only
  rcases h : st.watchedOutPoints.lookup op with _ | s <;> simp only [h]
  · by_cases hx : x = op
    · subst hx; simp [h]
    · simp [hx]
  · by_cases he : s.erase c = ∅
    · simp only [he, if_true]
      by_cases hx : x = op
      · subst hx; simp [Finmap.lookup_erase]
      · simp [hx, Finmap.lookup_erase_ne hx]
    · simp only [he, if_false]
      by_cases hx : x = op
      · subst hx; simp [Finmap.lookup_insert, he]
      · simp [hx, Finmap.lookup_insert_of_ne _ hx]

/-- The fields of the state after `removeAddrRequest`. -/
theorem removeAddrRequest_fields (st : RouterState) (c : ClientId) (a : String) :
    (removeAddrRequest st c a).1.clients = st.clients ∧
    (removeAddrRequest st c a).1.blockNotifications = st.blockNotifications ∧
    (removeAddrRequest st c a).1.txNotifications = st.txNotifications ∧
    (removeAddrRequest st c a).1.watchedOutPoints = st.watchedOutPoints ∧
    (removeAddrRequest st c a).1.spentRequests = st.spentRequests ∧
    (removeAddrRequest st c a).1.verboseTxUpdates = st.verboseTxUpdates ∧
    (removeAddrRequest st c a).1.addrRequests
      = Function.update st.addrRequests c ((st.addrRequests c).erase a) := by
  unfold removeAddrRequest
  dsimp only
  rcases h : st.watchedAddrs.lookup a with _ | s <;> simp only [h]
  all_goals first
  | (split <;> simp)
  | simp

/-- The watched-address index after `removeAddrRequest`, by lookup. -/
theorem removeAddrRequest_lookup (st : RouterState) (c : ClientId) (a : String)
    (x : String) :
    (removeAddrRequest st c a).1.watchedAddrs.lookup x
      = if x = a then
          (match st.watchedAddrs.lookup a with
           | none => none
           | some s => if s.erase c = ∅ then none else some (s.erase c))
        else st.watchedAddrs.lookup x := by
  unfold removeAddrRequest
  dsimp only
  rcases h : st.watchedAddrs.lookup a with _ | s <;> simp only [h]
  · by_cases hx : x = a
    · subst hx; simp [h]
    · simp [hx]
  · by_cases he : s.erase c = ∅
    · simp only [he, if_true]
      by_cases hx : x = a
      · subst hx; simp [Finmap.lookup_erase]
      · simp [hx, Finmap.lookup_erase_ne hx]
    · simp only [he, if_false]
      by_cases hx : x = a
      · subst hx; simp [Finmap.lookup_insert, he]
      · simp [hx, Finmap.lookup_insert_of_ne _ hx]

/-- Extensionality for router states. -/
theorem RouterState.ext' {s t : RouterState}
    (h1 : s.clients = t.clients) (h2 : s.blockNotifications = t.blockNotifications)
    (h3 : s.txNotifications = t.txNotifications)
    (h4 : s.watchedOutPoints = t.watchedOutPoints)
    (h5 : s.watchedAddrs = t.watchedAddrs)
    (h6 : s.spentRequests = t.spentRequests) (h7 : s.addrRequests = t.addrRequests)
    (h8 : s.verboseTxUpdates = t.verboseTxUpdates) : s = t := by
  cases s; cases t
  simp_all

/-- Registering a fresh spent request and then removing it restores the
state exactly (given the no-empty-inner-map invariant). -/
theorem spent_roundtrip (st : RouterState) (c : ClientId) (op : OutPoint)
    (hne : ∀ o s, st.watchedOutPoints.lookup o = some s → s ≠ ∅)
    (hop : op ∉ st.spentRequests c) (hopm : c ∉ opClientsOf st op) :
    (removeSpentRequest (addSpentRequest st c op) c op).1 = st := by
  obtain ⟨f1, f2, f3, f4, f5, f6, f7⟩ :=
    removeSpentRequest_fields (addSpentRequest st c op) c op
  refine RouterState.ext' ?_ ?_ ?_ ?_ ?_ ?_ ?_ ?_
  · rw [f1, addSpentRequest_eq]
  · rw [f2, addSpentRequest_eq]
  · rw [f3, addSpentRequest_eq]
  · apply Finmap.ext_lookup
    intro x
    rw [removeSpentRequest_lookup]
    by_cases hx : x = op
    · subst hx
      rw [if_pos rfl, addSpentRequest_eq]
      simp only [Finmap.lookup_insert]
      rcases hl : st.watchedOutPoints.lookup x with _ | s
      · have hs0 : opClientsOf st x = ∅ := by simp [opClientsOf, hl]
        simp [hs0, Finset.erase_insert_eq_erase, hl]
      · have hs0 : opClientsOf st x = s := by simp [opClientsOf, hl]
        have hc : c ∉ s := by rwa [hs0] at hopm
        have he : (insert c s).erase c = s := by
          rw [Finset.erase_insert_eq_erase, Finset.erase_eq_of_not_mem hc]
        simp [hs0, he, hne x s hl, hl]
    · rw [if_neg hx, addSpentRequest_eq]
      exact Finmap.lookup_insert_of_ne _ hx
  · rw [f4, addSpentRequest_eq]
  · rw [f7, addSpentRequest_eq]
    simp only [Function.update_same]
    rw [Finset.erase_insert hop, Function.update_idem, Function.update_eq_self]
  · rw [f5, addSpentRequest_eq]
  · rw [f6, addSpentRequest_eq]

/-- Registering a fresh address request and then removing it restores the
state exactly. -/
theorem addr_roundtrip (st : RouterState) (c : ClientId) (a : String)
    (hne : ∀ x s, st.watchedAddrs.lookup x = some s → s ≠ ∅)
    (ha : a ∉ st.addrRequests c) (ham : c ∉ addrClientsOf st a) :
    (removeAddrRequest (addAddrRequest st c a) c a).1 = st := by
  obtain ⟨f1, f2, f3, f4, f5, f6, f7⟩ :=
    removeAddrRequest_fields (addAddrRequest st c a) c a
  refine RouterState.ext' ?_ ?_ ?_ ?_ ?_ ?_ ?_ ?_
  · rw [f1, addAddrRequest_eq]
  · rw [f2, addAddrRequest_eq]
  · rw [f3, addAddrRequest_eq]
  · rw [f4, addAddrRequest_eq]
  · apply Finmap.ext_lookup
    intro x
    rw [removeAddrRequest_lookup]
    by_cases hx : x = a
    · subst hx
      rw [if_pos rfl, addAddrRequest_eq]
      simp only [Finmap.lookup_insert]
      rcases hl : st.watchedAddrs.lookup x with _ | s
      · have hs0 : addrClientsOf st x = ∅ := by simp [addrClientsOf, hl]
        simp [hs0, Finset.erase_insert_eq_erase, hl]
      · have hs0 : addrClientsOf st x = s := by simp [addrClientsOf, hl]
        have hc : c ∉ s := by rwa [hs0] at ham
        have he : (insert c s).erase c = s := by
          rw [Finset.erase_insert_eq_erase, Finset.erase_eq_of_not_mem hc]
        simp [hs0, he, hne x s hl, hl]
    · rw [if_neg hx, addAddrRequest_eq]
      exact Finmap.lookup_insert_of_ne _ hx
  · rw [f5, addAddrRequest_eq]
  · rw [f7, addAddrRequest_eq]
    simp only [Function.update_same]
    rw [Finset.erase_insert ha, Function.update_idem, Function.update_eq_self]
  · rw [f6, addAddrRequest_eq]

/-- Unregistering a spent request whose key is absent warns and leaves the
state unchanged (when the client holds no stale mirror entry). -/
theorem spent_absent_noop (st : RouterState) (c : ClientId) (op : OutPoint)
    (hop : op ∉ st.spentRequests c)
    (habs : st.watchedOutPoints.lookup op = none) :
    removeSpentRequest st c op = (st, true) := by
  unfold removeSpentRequest
  dsimp only
  simp only [habs]
  rw [Finset.erase_eq_of_not_mem hop, Function.update_eq_self]

/-- Unregistering an address request whose key is absent warns and leaves
the state unchanged. -/
theorem addr_absent_noop (st : RouterState) (c : ClientId) (a : String)
    (ha : a ∉ st.addrRequests c)
    (habs : st.watchedAddrs.lookup a = none) :
    removeAddrRequest st c a = (st, true) := by
  unfold removeAddrRequest
  dsimp only
  simp only [habs]
  rw [Finset.erase_eq_of_not_mem ha, Function.update_eq_self]

/-- C5 counterexample: when outpoint `op0` is already registered for client
1, registering it again (a no-op on the sets) and then unregistering it
does NOT return the router to its prior state: the subscription is gone. -/
theorem register_unregister_counterexample :
    (removeSpentRequest (addSpentRequests dupRegState 1 [op0]) 1 op0).1 ≠ dupRegState := by
  intro h
  have h1 := congrArg (fun s => s.spentRequests 1) h
  exact absurd h1 (by decide)

/-- C5 (amended): for a spent-outpoint or address subscription that is NOT
already present for the client, a register followed by an unregister
returns the router's indices and the client's mirror sets exactly to their
prior state (in states satisfying the no-empty-inner-map invariant); and
unregistering an absent key logs a warning and removes no entry at all. -/
theorem register_unregister_roundtrip (st : RouterState) (c : ClientId)
    (op : OutPoint) (a : String)
    (hneO : ∀ o s, st.watchedOutPoints.lookup o = some s → s ≠ ∅)
    (hneA : ∀ x s, st.watchedAddrs.lookup x = some s → s ≠ ∅)
    (hop : op ∉ st.spentRequests c) (hopm : c ∉ opClientsOf st op)
    (ha : a ∉ st.addrRequests c) (ham : c ∉ addrClientsOf st a) :
    (removeSpentRequest (addSpentRequests st c [op]) c op).1 = st ∧
    (removeAddrRequest (addAddrRequests st c [a]) c a).1 = st ∧
    (st.watchedOutPoints.lookup op = none → removeSpentRequest st c op = (st, true)) ∧
    (st.watchedAddrs.lookup a = none → removeAddrRequest st c a = (st, true)) :=
  ⟨spent_roundtrip st c op hneO hop hopm,
   addr_roundtrip st c a hneA ha ham,
   fun habs => spent_absent_noop st c op hop habs,
   fun habs => addr_absent_noop st c a ha habs⟩

/-- C5 witness: the amended round-trip laws at the empty router, client 1,
outpoint `op0` and address `"a"`. -/
theorem register_unregister_roundtrip_witness :
    (removeSpentRequest (addSpentRequests emptyRouter 1 [op0]) 1 op0).1 = emptyRouter ∧
    (removeAddrRequest (addAddrRequests emptyRouter 1 ["a"]) 1 "a").1 = emptyRouter ∧
    (emptyRouter.watchedOutPoints.lookup op0 = none →
      removeSpentRequest emptyRouter 1 op0 = (emptyRouter, true)) ∧
    (emptyRouter.watchedAddrs.lookup "a" = none →
      removeAddrRequest emptyRouter 1 "a" = (emptyRouter, true)) :=
  register_unregister_roundtrip emptyRouter 1 op0 "a"
    (by intro o s h; simp [emptyRouter, Finmap.lookup_empty] at h)
    (by intro x s h; simp [emptyRouter, Finmap.lookup_empty] at h)
    (by simp [emptyRouter])
    (by simp [opClientsOf, emptyRouter, Finmap.lookup_empty])
    (by simp [emptyRouter])
    (by simp [addrClientsOf, emptyRouter, Finmap.lookup_empty])

/-- C4 (amended): in `notifyForTxIns` and `notifyForTxOuts` a marshalling
failure is logged and drops only the offending notification — the router
state, the dedup set and the already-queued notifications are untouched and
the loop continues with the remaining inputs / addresses of the batch — but
in `notifyForNewTx` a failure to build or marshal the verbose notification
aborts the whole remaining batch: clients not yet served receive nothing. -/
theorem marshal_failure_scope (mOk : MarshalOk) (tx : Tx) (blk : Option Block)
    (txIn : TxIn) (restIns : List TxIn) (addr : Address) (restAddrs : List Address)
    (i : Nat) (st : RouterState) (notified : Finset ClientId)
    (acc : List (ClientId × Ntfn))
    (verbose : ClientId → Bool) (compactN verboseN : Ntfn) (rawOk : Bool)
    (c : ClientId) (restClients : List ClientId) (accN : List (ClientId × Ntfn))
    (hredeem : mOk (newRedeemingTxNtfn tx.hex tx.index blk) = false)
    (hrecv : mOk (Ntfn.recvTx tx.hex (blockDetails blk tx.index)) = false)
    (hverb : verbose c = true) (hvfail : (rawOk && mOk verboseN) = false) :
    notifyForTxInsGo mOk tx blk (txIn :: restIns) st notified acc
      = notifyForTxInsGo mOk tx blk restIns st notified acc ∧
    notifyOutAddrsGo mOk tx blk i (addr :: restAddrs) st notified acc
      = notifyOutAddrsGo mOk tx blk i restAddrs st notified acc ∧
    notifyForNewTxGo verbose compactN verboseN rawOk mOk (c :: restClients) false accN
      = accN := by
  refine ⟨?_, ?_, ?_⟩
  · rcases h : st.watchedOutPoints.lookup txIn.previousOutPoint with _ | cmap
    · simp [notifyForTxInsGo, h]
    · simp [notifyForTxInsGo, h, hredeem]
  · rcases h : st.watchedAddrs.lookup addr.encoded with _ | cmap
    · simp [notifyOutAddrsGo, h]
    · simp [notifyOutAddrsGo, h, hrecv]
  · simp [notifyForNewTxGo, hverb, hvfail]

/-- C4 witness: the three scope facts at concrete inputs (the never-succeed
marshalling oracle, an always-verbose client list with a failing raw-result
build). -/
theorem marshal_failure_scope_witness :
    notifyForTxInsGo marshalNever demoTx none [⟨op0⟩] emptyRouter ∅ []
      = notifyForTxInsGo marshalNever demoTx none [] emptyRouter ∅ [] ∧
    notifyOutAddrsGo marshalNever demoTx none 0 [demoAddr] emptyRouter ∅ []
      = notifyOutAddrsGo marshalNever demoTx none 0 [] emptyRouter ∅ [] ∧
    notifyForNewTxGo (fun _ => true) (Ntfn.txAccepted 0 0) (Ntfn.txAcceptedVerbose 0)
      false marshalNever [1] false [] = [] :=
  marshal_failure_scope marshalNever demoTx none ⟨op0⟩ [] demoAddr [] 0 emptyRouter ∅ []
    (fun _ => true) (Ntfn.txAccepted 0 0) (Ntfn.txAcceptedVerbose 0) false 1 [] []
    (by decide) (by decide) (by decide) (by decide)

/-- C7 counterexample: an already-authenticated client that sends an
`authenticate` command with a null id (a JSON-RPC notification) is NOT
disconnected — `handleMessage` returns at the null-id check before the
authenticate check is reached — contradicting "once authenticated, any
further authenticate command disconnects the client". -/
theorem authenticated_nullid_auth_counterexample :
    handleMessage demoAuth authedClient (.req ⟨none, .auth 10⟩) = (authedClient, []) ∧
    authedClient.authenticated = true ∧ authedClient.disconnected = false := by
  refine ⟨rfl, by decide, by decide⟩

/-- C7 (amended): while a client is unauthenticated, `handleMessage`
disconnects it immediately on any message that fails to unmarshal, fails
command parsing, or is not an `authenticate` command, and on an
`authenticate` whose credential digest matches neither stored hash; on a
match it marks the client authenticated, sets `isAdmin` true iff the admin
digest matched, and replies with an empty success.  Once authenticated, a
further `authenticate` command disconnects the client provided the request
carries a non-null id and the client is an admin or `"authenticate"` is in
the limited-user allow-list; an `authenticate` with a null id is ignored
without reply or disconnect. -/
theorem handlemessage_auth_protocol (cfg : ServerAuth) (c : WsClientState)
    (id : Option Nat) (meth : String) (d j : Nat) :
    (c.authenticated = false →
      handleMessage cfg c .malformed = ({ c with disconnected := true }, []) ∧
      handleMessage cfg c (.req ⟨id, .cmdParseErr meth⟩)
        = ({ c with disconnected := true }, []) ∧
      handleMessage cfg c (.req ⟨id, .cmd meth⟩)
        = ({ c with disconnected := true }, []) ∧
      (d ≠ cfg.authsha → d ≠ cfg.limitauthsha →
        handleMessage cfg c (.req ⟨id, .auth d⟩)
          = ({ c with disconnected := true }, [])) ∧
      ((d = cfg.authsha ∨ d = cfg.limitauthsha) →
        handleMessage cfg c (.req ⟨id, .auth d⟩)
          = ({ c with authenticated := true, isAdmin := d == cfg.authsha },
              [Reply.emptySuccess id]))) ∧
    (c.authenticated = true →
      handleMessage cfg c (.req ⟨none, .auth d⟩) = (c, []) ∧
      (c.isAdmin = true ∨ "authenticate" ∈ cfg.rpcLimited →
        handleMessage cfg c (.req ⟨some j, .auth d⟩)
          = ({ c with disconnected := true }, []))) := by
  constructor
  · intro hA
    refine ⟨?_, ?_, ?_, ?_, ?_⟩
    · simp [handleMessage, hA]
    · simp [handleMessage, hA]
    · simp [handleMessage, hA]
    · intro h1 h2
      simp [handleMessage, hA, h1, h2]
    · intro h
      have hcond : ¬(d ≠ cfg.authsha ∧ d ≠ cfg.limitauthsha) := by
        rcases h with h | h <;> simp [h]
      simp [handleMessage, hA, hcond]
  · intro hA
    constructor
    · simp [handleMessage, hA]
    · intro h
      rcases h with h | h
      · simp [handleMessage, hA, h]
      · simp [handleMessage, hA, h, ParseOutcome.methodName]

/-- C7 witness: at the sample credentials, a fresh client authenticating
with the admin digest becomes an authenticated admin with an empty success
reply, and an authenticated admin sending a second `authenticate` with an
id is disconnected. -/
theorem handlemessage_auth_protocol_witness :
    handleMessage demoAuth freshClient (.req ⟨some 1, .auth 10⟩)
      = ({ freshClient with authenticated := true, isAdmin := (10 == demoAuth.authsha) },
          [Reply.emptySuccess (some 1)]) ∧
    handleMessage demoAuth authedClient (.req ⟨some 1, .auth 10⟩)
      = ({ authedClient with disconnected := true }, []) :=
  ⟨((handlemessage_auth_protocol demoAuth freshClient (some 1) "m" 10 1).1
      (by decide)).2.2.2.2 (Or.inl (by decide)),
   ((handlemessage_auth_protocol demoAuth authedClient (some 1) "m" 10 1).2
      (by decide)).2 (Or.inl (by decide))⟩

/-! ## Rescan unspent-set maintenance (C9) -/

/-- With a connected client, `rescanBlock`'s input loop maintains the unspent
set exactly as the notification-free erase-fold, whatever the marshalling
outcomes and the dedup flag, and never aborts. -/
theorem rescanTxIns_unspent (mOk : MarshalOk) (tx : Tx) (blk : Block) (L : List TxIn) :
    ∀ (u : Finset OutPoint) (acc : List Ntfn) (sn : Bool),
      (rescanTxIns mOk false tx blk L u acc sn).unspent
          = L.foldl (fun v txin => v.erase txin.previousOutPoint) u ∧
      (rescanTxIns mOk false tx blk L u acc sn).aborted = false := by
  induction L with
  | nil => intro u acc sn; simp [rescanTxIns]
  | cons txin rest ih =>
    intro u acc sn
    by_cases hmem : txin.previousOutPoint ∈ u
    · cases sn with
      | true =>
        simpa [rescanTxIns, hmem] using ih (u.erase txin.previousOutPoint) acc true
      | false =>
        cases hm : mOk (newRedeemingTxNtfn tx.hex tx.index (some blk)) with
        | true =>
          simpa [rescanTxIns, hmem, hm] using
            ih (u.erase txin.previousOutPoint)
              (acc ++ [newRedeemingTxNtfn tx.hex tx.index (some blk)]) true
        | false =>
          simpa [rescanTxIns, hmem, hm] using
            ih (u.erase txin.previousOutPoint) acc false
    · have he : u.erase txin.previousOutPoint = u := Finset.erase_eq_of_not_mem hmem
      simpa [rescanTxIns, hmem, he] using ih u acc sn

/-- With a connected client and the `recvtx` notification of the transaction
marshalling fine, the address loop of `rescanBlock`'s output scan maintains
the unspent set exactly as the notification-free insert-fold, and never
aborts. -/
theorem rescanOutAddrs_unspent (mOk : MarshalOk) (lookups : RescanKeys)
    (tx : Tx) (blk : Block) (idx : Nat)
    (hrecv : mOk (Ntfn.recvTx tx.hex (blockDetails (some blk) tx.index)) = true)
    (L : List Address) :
    ∀ (u : Finset OutPoint) (acc : List Ntfn) (rn : Bool),
      (rescanOutAddrs mOk false lookups tx blk idx L u acc rn).unspent
          = L.foldl
              (fun v a =>
                if rescanAddrMatch lookups a then insert (⟨tx.sha, idx⟩ : OutPoint) v else v)
              u ∧
      (rescanOutAddrs mOk false lookups tx blk idx L u acc rn).aborted = false := by
  induction L with
  | nil => intro u acc rn; simp [rescanOutAddrs]
  | cons addr rest ih =>
    intro u acc rn
    by_cases hmatch : rescanAddrMatch lookups addr = true
    · cases rn with
      | true =>
        simpa [rescanOutAddrs, hmatch] using
          ih (insert (⟨tx.sha, idx⟩ : OutPoint) u) acc true
      | false =>
        simpa [rescanOutAddrs, hmatch, hrecv] using
          ih (insert (⟨tx.sha, idx⟩ : OutPoint) u)
            (acc ++ [Ntfn.recvTx tx.hex (blockDetails (some blk) tx.index)]) true
    · simpa [rescanOutAddrs, hmatch] using ih u acc rn

/-- The output loop of `rescanBlock` for one transaction, against the
notification-free fold. -/
theorem rescanTxOuts_unspent (mOk : MarshalOk) (lookups : RescanKeys)
    (tx : Tx) (blk : Block)
    (hrecv : mOk (Ntfn.recvTx tx.hex (blockDetails (some blk) tx.index)) = true)
    (L : List (Nat × TxOut)) :
    ∀ (u : Finset OutPoint) (acc : List Ntfn) (rn : Bool),
      (rescanTxOuts mOk false lookups tx blk L u acc rn).unspent
          = L.foldl
              (fun v p =>
                p.2.addrs.foldl
                  (fun v' a =>
                    if rescanAddrMatch lookups a then
                      insert (⟨tx.sha, p.1⟩ : OutPoint) v'
                    else v')
                  v)
              u ∧
      (rescanTxOuts mOk false lookups tx blk L u acc rn).aborted = false := by
  induction L with
  | nil => intro u acc rn; simp [rescanTxOuts]
  | cons p rest ih =>
    obtain ⟨idx, txout⟩ := p
    intro u acc rn
    obtain ⟨hu, hab⟩ := rescanOutAddrs_unspent mOk lookups tx blk idx hrecv txout.addrs u acc rn
    simp only [rescanTxOuts, hab, Bool.false_eq_true, if_false, List.foldl_cons]
    rw [← hu]
    exact ih _ _ _

/-- One transaction of `rescanBlock` against `updateUnspentTx`. -/
theorem rescanTx_unspent (mOk : MarshalOk) (lookups : RescanKeys)
    (blk : Block) (tx : Tx)
    (hrecv : mOk (Ntfn.recvTx tx.hex (blockDetails (some blk) tx.index)) = true)
    (u : Finset OutPoint) (acc : List Ntfn) :
    (rescanTx mOk false lookups blk tx u acc).unspent = updateUnspentTx lookups u tx ∧
    (rescanTx mOk false lookups blk tx u acc).aborted = false := by
  obtain ⟨hu, hab⟩ := rescanTxIns_unspent mOk tx blk tx.txIns u acc false
  simp only [rescanTx, hab, Bool.false_eq_true, if_false]
  obtain ⟨hu2, hab2⟩ :=
    rescanTxOuts_unspent mOk lookups tx blk hrecv tx.txOuts.enum
      (rescanTxIns mOk false tx blk tx.txIns u acc false).unspent
      (rescanTxIns mOk false tx blk tx.txIns u acc false).ntfns false
  refine ⟨?_, hab2⟩
  rw [hu2, hu]
  rfl

/-- The transaction loop of `rescanBlock` against the fold of
`updateUnspentTx`. -/
theorem rescanBlockGo_unspent (mOk : MarshalOk) (lookups : RescanKeys) (blk : Block)
    (L : List Tx)
    (hrecv : ∀ tx ∈ L, mOk (Ntfn.recvTx tx.hex (blockDetails (some blk) tx.index)) = true) :
    ∀ (u : Finset OutPoint) (acc : List Ntfn),
      (rescanBlockGo mOk false lookups blk L u acc).unspent
          = L.foldl (updateUnspentTx lookups) u := by
  induction L with
  | nil => intro u acc; simp [rescanBlockGo]
  | cons tx rest ih =>
    intro u acc
    have htx := rescanTx_unspent mOk lookups blk tx
      (hrecv tx (List.mem_cons_self tx rest)) u acc
    simp only [rescanBlockGo, htx.2, Bool.false_eq_true, if_false, List.foldl_cons]
    rw [← htx.1]
    exact ih (fun t ht => hrecv t (List.mem_cons_of_mem tx ht)) _ _

/-- C9: `rescanBlock` maintains the unspent set independently of
notification outcomes.  For a connected client whose `recvtx` notifications
marshal fine, the final unspent set equals the notification-free fold
`updateUnspentBlock` — in particular every input spending a tracked
outpoint has it deleted even when the `redeemingtx` notification is
suppressed by the per-transaction dedup flag or fails to marshal (`mOk` is
arbitrary on `redeemingtx`), and every key-matching output has its new
outpoint inserted even when the `recvtx` notification is suppressed by
dedup. -/
theorem rescanblock_unspent_independent (mOk : MarshalOk) (lookups : RescanKeys)
    (blk : Block)
    (hrecv : ∀ tx ∈ blk.txs,
      mOk (Ntfn.recvTx tx.hex (blockDetails (some blk) tx.index)) = true) :
    (rescanBlock mOk false lookups blk).1 = updateUnspentBlock lookups blk := by
  unfold rescanBlock updateUnspentBlock
  exact rescanBlockGo_unspent mOk lookups blk blk.txs hrecv lookups.unspent []

/-- C9 witness: with the oracle that fails every `redeemingtx` marshal, the
demo block's rescan still ends with the unspent set of the
notification-free fold. -/
theorem rescanblock_unspent_independent_witness :
    (rescanBlock failRedeemMarshal false demoKeys rescanDemoBlock).1
      = updateUnspentBlock demoKeys rescanDemoBlock :=
  rescanblock_unspent_independent failRedeemMarshal demoKeys rescanDemoBlock (by decide)

/-! ## One-shot spent subscriptions (C2) -/

/-- After `removeSpentRequest`, the client's own mirror entry for the
outpoint is gone. -/
theorem removeSpentRequest_spent_self (st : RouterState) (c : ClientId) (op : OutPoint) :
    op ∉ (removeSpentRequest st c op).1.spentRequests c := by
  rw [(removeSpentRequest_fields st c op).2.2.2.2.2.2, Function.update_same]
  exact Finset.not_mem_erase op _

/-- `removeSpentRequest` never adds a mirror entry. -/
theorem removeSpentRequest_spent_mono (st : RouterState) (c : ClientId) (op : OutPoint)
    (c' : ClientId) (o : OutPoint)
    (h : o ∈ (removeSpentRequest st c op).1.spentRequests c') :
    o ∈ st.spentRequests c' := by
  rw [(removeSpentRequest_fields st c op).2.2.2.2.2.2] at h
  by_cases hc : c' = c
  · subst hc
    rw [Function.update_same] at h
    exact Finset.mem_of_mem_erase h
  · rwa [Function.update_noteq hc] at h

/-- `removeSpentRequest` preserves the no-empty-inner-map invariant. -/
theorem removeSpentRequest_preserves_ne (st : RouterState) (c : ClientId) (op : OutPoint)
    (hne : ∀ o s, st.watchedOutPoints.lookup o = some s → s ≠ ∅) :
    ∀ o s, (removeSpentRequest st c op).1.watchedOutPoints.lookup o = some s → s ≠ ∅ := by
  intro o s h
  rw [removeSpentRequest_lookup] at h
  by_cases ho : o = op
  · rw [if_pos ho] at h
    rcases hl : st.watchedOutPoints.lookup op with _ | t
    · rw [hl] at h; cases h
    · rw [hl] at h
      dsimp only at h
      by_cases he : t.erase c = ∅
      · rw [if_pos he] at h; cases h
      · rw [if_neg he] at h
        cases h
        exact he
  · rw [if_neg ho] at h
    exact hne o s h

/-- The fold of `removeSpentRequest` over a client list, at a fixed
outpoint, leaves every other key's lookup untouched. -/
theorem foldRemove_lookup_other (op x : OutPoint) (hx : x ≠ op) :
    ∀ (L : List ClientId) (st : RouterState),
      ((L.foldl (fun s c => (removeSpentRequest s c op).1) st).watchedOutPoints.lookup x)
        = st.watchedOutPoints.lookup x := by
  intro L
  induction L with
  | nil => intro st; rfl
  | cons c rest ih =>
    intro st
    rw [List.foldl_cons, ih, removeSpentRequest_lookup, if_neg hx]

/-- The fold of `removeSpentRequest` preserves the no-empty-inner-map
invariant. -/
theorem foldRemove_preserves_ne (op : OutPoint) :
    ∀ (L : List ClientId) (st : RouterState),
      (∀ o s, st.watchedOutPoints.lookup o = some s → s ≠ ∅) →
      ∀ o s,
        ((L.foldl (fun s c => (removeSpentRequest s c op).1) st).watchedOutPoints.lookup o)
            = some s → s ≠ ∅ := by
  intro L
  induction L with
  | nil => intro st hne; exact hne
  | cons c rest ih =>
    intro st hne
    rw [List.foldl_cons]
    exact ih _ (removeSpentRequest_preserves_ne st c op hne)

/-- The fold of `removeSpentRequest` never adds mirror entries. -/
theorem foldRemove_spent_mono (op : OutPoint) :
    ∀ (L : List ClientId) (st : RouterState) (c' : ClientId) (o : OutPoint),
      o ∈ (L.foldl (fun s c => (removeSpentRequest s c op).1) st).spentRequests c' →
      o ∈ st.spentRequests c' := by
  intro L
  induction L with
  | nil => intro st c' o h; exact h
  | cons c rest ih =>
    intro st c' o h
    rw [List.foldl_cons] at h
    exact removeSpentRequest_spent_mono st c op c' o (ih _ c' o h)

/-- After the fold of `removeSpentRequest` over a client list, every listed
client's mirror entry for the outpoint is gone. -/
theorem foldRemove_spent_removed (op : OutPoint) :
    ∀ (L : List ClientId) (st : RouterState) (c : ClientId), c ∈ L →
      op ∉ (L.foldl (fun s c => (removeSpentRequest s c op).1) st).spentRequests c := by
  intro L
  induction L with
  | nil => intro st c h; cases h
  | cons c0 rest ih =>
    intro st c h
    rw [List.foldl_cons]
    rcases List.mem_cons.mp h with h | h
    · subst h
      intro hmem
      exact removeSpentRequest_spent_self st c op
        (foldRemove_spent_mono op rest _ c op hmem)
    · exact ih _ c h

/-- After folding `removeSpentRequest` over a list covering every watcher of
the outpoint, the outpoint's key is gone from the index. -/
theorem foldRemove_lookup_none (op : OutPoint) :
    ∀ (L : List ClientId) (st : RouterState),
      (∀ o s, st.watchedOutPoints.lookup o = some s → s ≠ ∅) →
      (∀ x ∈ opClientsOf st op, x ∈ L) →
      ((L.foldl (fun s c => (removeSpentRequest s c op).1) st).watchedOutPoints.lookup op)
        = none := by
  intro L
  induction L with
  | nil =>
    intro st hne hsub
    rcases hl : st.watchedOutPoints.lookup op with _ | s
    · exact hl
    · exfalso
      obtain ⟨x, hx⟩ := Finset.nonempty_iff_ne_empty.mpr (hne op s hl)
      have : x ∈ opClientsOf st op := by simp [opClientsOf, hl, hx]
      cases hsub x this
  | cons c rest ih =>
    intro st hne hsub
    rw [List.foldl_cons]
    refine ih _ (removeSpentRequest_preserves_ne st c op hne) ?_
    intro x hx
    have hlook := removeSpentRequest_lookup st c op op
    rw [if_pos rfl] at hlook
    rcases hl : st.watchedOutPoints.lookup op with _ | t
    · rw [hl] at hlook
      dsimp only at hlook
      rw [opClientsOf, hlook] at hx
      cases hx
    · rw [hl] at hlook
      dsimp only at hlook
      by_cases he : t.erase c = ∅
      · rw [if_pos he] at hlook
        rw [opClientsOf, hlook] at hx
        cases hx
      · rw [if_neg he] at hlook
        rw [opClientsOf, hlook] at hx
        simp only [Option.getD_some] at hx
        have hxt : x ∈ t ∧ x ≠ c := by
          have := Finset.mem_erase.mp hx
          exact ⟨this.2, this.1⟩
        have hxL : x ∈ c :: rest := by
          apply hsub
          simp [opClientsOf, hl, hxt.1]
        rcases List.mem_cons.mp hxL with h | h
        · exact absurd h hxt.2
        · exact h

/-- Membership in `freshClients`. -/
theorem mem_freshClients (cmap notified : Finset ClientId) (c : ClientId) :
    c ∈ freshClients cmap notified ↔ c ∈ cmap ∧ c ∉ notified := by
  simp [freshClients, List.mem_filter, Finset.mem_sort]

/-- `notifyForTxIns`' loop never creates index keys. -/
theorem insGo_lookup_none (mOk : MarshalOk) (tx : Tx) (blk : Option Block) (op : OutPoint) :
    ∀ (L : List TxIn) (st : RouterState) (notified : Finset ClientId)
      (acc : List (ClientId × Ntfn)),
      st.watchedOutPoints.lookup op = none →
      (notifyForTxInsGo mOk tx blk L st notified acc).1.watchedOutPoints.lookup op
        = none := by
  intro L
  induction L with
  | nil => intro st notified acc h; exact h
  | cons txIn rest ih =>
    intro st notified acc h
    rcases hl : st.watchedOutPoints.lookup txIn.previousOutPoint with _ | cmap
    · simp only [notifyForTxInsGo, hl]
      exact ih st notified acc h
    · have hq : op ≠ txIn.previousOutPoint := by
        intro he; rw [← he, h] at hl; cases hl
      cases hm : mOk (newRedeemingTxNtfn tx.hex tx.index blk) with
      | false =>
        simp only [notifyForTxInsGo, hl, hm, Bool.false_eq_true, if_false]
        exact ih st notified acc h
      | true =>
        simp only [notifyForTxInsGo, hl, hm, if_true]
        cases blk with
        | none =>
          simp only [Option.isSome_none, Bool.false_eq_true, if_false]
          exact ih st _ _ h
        | some b =>
          simp only [Option.isSome_some, if_true]
          refine ih _ _ _ ?_
          rw [foldRemove_lookup_other _ op hq]
          exact h

/-- `notifyForTxIns`' loop preserves the no-empty-inner-map invariant. -/
theorem insGo_preserves_ne (mOk : MarshalOk) (tx : Tx) (blk : Option Block) :
    ∀ (L : List TxIn) (st : RouterState) (notified : Finset ClientId)
      (acc : List (ClientId × Ntfn)),
      (∀ o s, st.watchedOutPoints.lookup o = some s → s ≠ ∅) →
      ∀ o s,
        (notifyForTxInsGo mOk tx blk L st notified acc).1.watchedOutPoints.lookup o
            = some s → s ≠ ∅ := by
  intro L
  induction L with
  | nil => intro st notified acc hne; exact hne
  | cons txIn rest ih =>
    intro st notified acc hne
    rcases hl : st.watchedOutPoints.lookup txIn.previousOutPoint with _ | cmap
    · simp only [notifyForTxInsGo, hl]
      exact ih st notified acc hne
    · cases hm : mOk (newRedeemingTxNtfn tx.hex tx.index blk) with
      | false =>
        simp only [notifyForTxInsGo, hl, hm, Bool.false_eq_true, if_false]
        exact ih st notified acc hne
      | true =>
        simp only [notifyForTxInsGo, hl, hm, if_true]
        cases blk with
        | none =>
          simp only [Option.isSome_none, Bool.false_eq_true, if_false]
          exact ih st _ _ hne
        | some b =>
          simp only [Option.isSome_some, if_true]
          exact ih _ _ _ (foldRemove_preserves_ne _ _ st hne)

/-- `notifyForTxIns`' loop never adds mirror entries. -/
theorem insGo_spent_mono (mOk : MarshalOk) (tx : Tx) (blk : Option Block) :
    ∀ (L : List TxIn) (st : RouterState) (notified : Finset ClientId)
      (acc : List (ClientId × Ntfn)) (c : ClientId) (o : OutPoint),
      o ∈ (notifyForTxInsGo mOk tx blk L st notified acc).1.spentRequests c →
      o ∈ st.spentRequests c := by
  intro L
  induction L with
  | nil => intro st notified acc c o h; exact h
  | cons txIn rest ih =>
    intro st notified acc c o h
    rcases hl : st.watchedOutPoints.lookup txIn.previousOutPoint with _ | cmap
    · simp only [notifyForTxInsGo, hl] at h
      exact ih st notified acc c o h
    · cases hm : mOk (newRedeemingTxNtfn tx.hex tx.index blk) with
      | false =>
        simp only [notifyForTxInsGo, hl, hm, Bool.false_eq_true, if_false] at h
        exact ih st notified acc c o h
      | true =>
        simp only [notifyForTxInsGo, hl, hm, if_true] at h
        cases blk with
        | none =>
          simp only [Option.isSome_none, Bool.false_eq_true, if_false] at h
          exact ih st _ _ c o h
        | some b =>
          simp only [Option.isSome_some, if_true] at h
          exact foldRemove_spent_mono _ _ st c o (ih _ _ _ c o h)

/-- `notifyForTxIns`' loop only appends to the emission accumulator. -/
theorem insGo_acc_mono (mOk : MarshalOk) (tx : Tx) (blk : Option Block) :
    ∀ (L : List TxIn) (st : RouterState) (notified : Finset ClientId)
      (acc : List (ClientId × Ntfn)) (x : ClientId × Ntfn),
      x ∈ acc → x ∈ (notifyForTxInsGo mOk tx blk L st notified acc).2.2 := by
  intro L
  induction L with
  | nil => intro st notified acc x h; exact h
  | cons txIn rest ih =>
    intro st notified acc x h
    rcases hl : st.watchedOutPoints.lookup txIn.previousOutPoint with _ | cmap
    · simp only [notifyForTxInsGo, hl]
      exact ih st notified acc x h
    · cases hm : mOk (newRedeemingTxNtfn tx.hex tx.index blk) with
      | false =>
        simp only [notifyForTxInsGo, hl, hm, Bool.false_eq_true, if_false]
        exact ih st notified acc x h
      | true =>
        simp only [notifyForTxInsGo, hl, hm, if_true]
        exact ih _ _ _ x (List.mem_append_left _ h)

/-- With no block context, `notifyForTxIns`' loop leaves the state
untouched. -/
theorem insGo_none_state (mOk : MarshalOk) (tx : Tx) :
    ∀ (L : List TxIn) (st : RouterState) (notified : Finset ClientId)
      (acc : List (ClientId × Ntfn)),
      (notifyForTxInsGo mOk tx none L st notified acc).1 = st := by
  intro L
  induction L with
  | nil => intro st notified acc; rfl
  | cons txIn rest ih =>
    intro st notified acc
    rcases hl : st.watchedOutPoints.lookup txIn.previousOutPoint with _ | cmap
    · simp only [notifyForTxInsGo, hl]
      exact ih st notified acc
    · cases hm : mOk (newRedeemingTxNtfn tx.hex tx.index none) with
      | false =>
        simp only [notifyForTxInsGo, hl, hm, Bool.false_eq_true, if_false]
        exact ih st notified acc
      | true =>
        simp only [notifyForTxInsGo, hl, hm, if_true, Option.isSome_none,
          Bool.false_eq_true, if_false]
        exact ih st _ _

/-- When some input spends `op` and the `redeemingtx` notification marshals,
`notifyForTxIns`' loop (with block context) removes `op`'s key from the
index. -/
theorem insGo_removes (mOk : MarshalOk) (tx : Tx) (b : Block) (op : OutPoint)
    (hm : mOk (newRedeemingTxNtfn tx.hex tx.index (some b)) = true) :
    ∀ (L : List TxIn) (st : RouterState) (notified : Finset ClientId)
      (acc : List (ClientId × Ntfn)),
      (∀ o s, st.watchedOutPoints.lookup o = some s → s ≠ ∅) →
      op ∈ L.map (fun i => i.previousOutPoint) →
      (notifyForTxInsGo mOk tx (some b) L st notified acc).1.watchedOutPoints.lookup op
        = none := by
  intro L
  induction L with
  | nil => intro st notified acc hne h; cases h
  | cons txIn rest ih =>
    intro st notified acc hne hmem
    by_cases hq : txIn.previousOutPoint = op
    · subst hq
      rcases hl : st.watchedOutPoints.lookup txIn.previousOutPoint with _ | cmap
      · exact insGo_lookup_none mOk tx (some b) txIn.previousOutPoint (txIn :: rest)
          st notified acc hl
      · simp only [notifyForTxInsGo, hl, hm, if_true, Option.isSome_some]
        refine insGo_lookup_none mOk tx (some b) txIn.previousOutPoint rest _ _ _ ?_
        refine foldRemove_lookup_none _ _ st hne ?_
        intro x hx
        rw [opClientsOf, hl, Option.getD_some] at hx
        exact (Finset.mem_sort _).mpr hx
    · have hrest : op ∈ rest.map (fun i => i.previousOutPoint) := by
        rw [List.map_cons] at hmem
        rcases List.mem_cons.mp hmem with h | h
        · exact absurd h.symm hq
        · exact h
      rcases hl : st.watchedOutPoints.lookup txIn.previousOutPoint with _ | cmap
      · simp only [notifyForTxInsGo, hl]
        exact ih st notified acc hne hrest
      · simp only [notifyForTxInsGo, hl, hm, if_true, Option.isSome_some]
        exact ih _ _ _ (foldRemove_preserves_ne _ _ st hne) hrest

/-- When some input spends `op`, the `redeemingtx` notification marshals
and the mirror invariant holds locally at `op`, the loop removes `op` from
every client's mirror set. -/
theorem insGo_spent_removed (mOk : MarshalOk) (tx : Tx) (b : Block) (op : OutPoint)
    (hm : mOk (newRedeemingTxNtfn tx.hex tx.index (some b)) = true) :
    ∀ (L : List TxIn) (st : RouterState) (notified : Finset ClientId)
      (acc : List (ClientId × Ntfn)),
      (∀ c', op ∈ st.spentRequests c' → c' ∈ opClientsOf st op) →
      op ∈ L.map (fun i => i.previousOutPoint) →
      ∀ c', op ∉ (notifyForTxInsGo mOk tx (some b) L st notified acc).1.spentRequests c' := by
  intro L
  induction L with
  | nil => intro st notified acc hinv h; cases h
  | cons txIn rest ih =>
    intro st notified acc hinv hmem
    by_cases hq : txIn.previousOutPoint = op
    · subst hq
      rcases hl : st.watchedOutPoints.lookup txIn.previousOutPoint with _ | cmap
      · intro c' hcon
        have h2 := insGo_spent_mono mOk tx (some b) (txIn :: rest) st notified acc c'
          txIn.previousOutPoint hcon
        have h3 := hinv c' h2
        rw [opClientsOf, hl] at h3
        cases h3
      · intro c' hcon
        simp only [notifyForTxInsGo, hl, hm, if_true, Option.isSome_some] at hcon
        have h2 := insGo_spent_mono mOk tx (some b) rest _ _ _ c'
          txIn.previousOutPoint hcon
        by_cases hcmem : c' ∈ cmap
        · exact foldRemove_spent_removed txIn.previousOutPoint _ st c'
            ((Finset.mem_sort _).mpr hcmem) h2
        · have h3 := foldRemove_spent_mono _ _ st c' txIn.previousOutPoint h2
          have h4 := hinv c' h3
          rw [opClientsOf, hl, Option.getD_some] at h4
          exact hcmem h4
    · have hrest : op ∈ rest.map (fun i => i.previousOutPoint) := by
        rw [List.map_cons] at hmem
        rcases List.mem_cons.mp hmem with h | h
        · exact absurd h.symm hq
        · exact h
      rcases hl : st.watchedOutPoints.lookup txIn.previousOutPoint with _ | cmap
      · intro c' hcon
        simp only [notifyForTxInsGo, hl] at hcon
        exact ih st notified acc hinv hrest c' hcon
      · intro c' hcon
        simp only [notifyForTxInsGo, hl, hm, if_true, Option.isSome_some] at hcon
        refine ih _ _ _ ?_ hrest c' hcon
        intro c'' hc''
        have h2 := foldRemove_spent_mono _ _ st c'' op hc''
        have h3 := hinv c'' h2
        rw [opClientsOf, foldRemove_lookup_other _ op (fun he => hq he.symm)]
        exact h3

/-- When some input spends `op` and the `redeemingtx` notification marshals,
every client watching `op` receives the notification (the dedup set only
suppressing clients that already received this very notification). -/
theorem insGo_emits (mOk : MarshalOk) (tx : Tx) (b : Block) (op : OutPoint)
    (hm : mOk (newRedeemingTxNtfn tx.hex tx.index (some b)) = true) :
    ∀ (L : List TxIn) (st : RouterState) (notified : Finset ClientId)
      (acc : List (ClientId × Ntfn)),
      (∀ c ∈ opClientsOf st op, c ∈ notified →
        (c, newRedeemingTxNtfn tx.hex tx.index (some b)) ∈ acc) →
      op ∈ L.map (fun i => i.previousOutPoint) →
      ∀ c ∈ opClientsOf st op,
        (c, newRedeemingTxNtfn tx.hex tx.index (some b))
          ∈ (notifyForTxInsGo mOk tx (some b) L st notified acc).2.2 := by
  intro L
  induction L with
  | nil => intro st notified acc hprev h; cases h
  | cons txIn rest ih =>
    intro st notified acc hprev hmem
    by_cases hq : txIn.previousOutPoint = op
    · subst hq
      rcases hl : st.watchedOutPoints.lookup txIn.previousOutPoint with _ | cmap
      · intro c hc
        rw [opClientsOf, hl] at hc
        cases hc
      · intro c hc
        have hc' : c ∈ cmap := by
          rw [opClientsOf, hl, Option.getD_some] at hc
          exact hc
        simp only [notifyForTxInsGo, hl, hm, if_true]
        by_cases hn : c ∈ notified
        · exact insGo_acc_mono mOk tx (some b) rest _ _ _ _
            (List.mem_append_left _ (hprev c hc hn))
        · refine insGo_acc_mono mOk tx (some b) rest _ _ _ _
            (List.mem_append_right _ ?_)
          exact List.mem_map.mpr ⟨c, (mem_freshClients cmap notified c).mpr ⟨hc', hn⟩, rfl⟩
    · have hrest : op ∈ rest.map (fun i => i.previousOutPoint) := by
        rw [List.map_cons] at hmem
        rcases List.mem_cons.mp hmem with h | h
        · exact absurd h.symm hq
        · exact h
      rcases hl : st.watchedOutPoints.lookup txIn.previousOutPoint with _ | cmap
      · intro c hc
        simp only [notifyForTxInsGo, hl]
        exact ih st notified acc hprev hrest c hc
      · intro c hc
        simp only [notifyForTxInsGo, hl, hm, if_true, Option.isSome_some]
        have hsame : opClientsOf
            ((cmap.sort (· ≤ ·)).foldl
              (fun s c => (removeSpentRequest s c txIn.previousOutPoint).1) st) op
            = opClientsOf st op := by
          rw [opClientsOf, opClientsOf,
            foldRemove_lookup_other _ op (fun he => hq he.symm)]
        refine ih _ _ _ ?_ hrest c (by rw [hsame]; exact hc)
        intro c'' hc'' hn
        rw [hsame] at hc''
        rcases Finset.mem_union.mp hn with hn | hn
        · exact List.mem_append_left _ (hprev c'' hc'' hn)
        · by_cases hn2 : c'' ∈ notified
          · exact List.mem_append_left _ (hprev c'' hc'' hn2)
          · refine List.mem_append_right _ ?_
            exact List.mem_map.mpr
              ⟨c'', (mem_freshClients cmap notified c'').mpr ⟨hn, hn2⟩, rfl⟩

/-- C2: watched-outpoint subscriptions are one-shot with respect to
block-confirmed spends.  With block context, after the router processes a
transaction one of whose inputs spends the watched outpoint `op` (and the
`redeemingtx` notification marshals), `op` is gone from `watchedOutPoints`,
gone from every client's `spentRequests` mirror set (given the mirror
invariant localized at `op`), and every client that was watching `op` had
the `redeemingtx` notification queued; with no block context (mempool), the
indices are unchanged. -/
theorem notifyspent_one_shot (mOk : MarshalOk) (st : RouterState) (tx : Tx) (b : Block)
    (op : OutPoint)
    (hne : ∀ o s, st.watchedOutPoints.lookup o = some s → s ≠ ∅)
    (hinv : ∀ c, op ∈ st.spentRequests c → c ∈ opClientsOf st op)
    (hin : op ∈ tx.txIns.map (fun i => i.previousOutPoint))
    (hm : mOk (newRedeemingTxNtfn tx.hex tx.index (some b)) = true) :
    (notifyForTxIns mOk st tx (some b)).1.watchedOutPoints.lookup op = none ∧
    (∀ c, op ∉ (notifyForTxIns mOk st tx (some b)).1.spentRequests c) ∧
    (∀ c, c ∈ opClientsOf st op →
      (c, newRedeemingTxNtfn tx.hex tx.index (some b))
        ∈ (notifyForTxIns mOk st tx (some b)).2) ∧
    (notifyForTxIns mOk st tx none).1 = st := by
  unfold notifyForTxIns
  by_cases hz : st.watchedOutPoints = ∅
  · rw [if_pos hz]
    refine ⟨?_, ?_, ?_, by rw [if_pos hz]⟩
    · rw [hz]
      exact Finmap.lookup_empty op
    · intro c hc
      have h1 := hinv c hc
      rw [opClientsOf, hz, Finmap.lookup_empty] at h1
      cases h1
    · intro c hc
      rw [opClientsOf, hz, Finmap.lookup_empty] at hc
      cases hc
  · rw [if_neg hz, if_neg hz]
    exact ⟨insGo_removes mOk tx b op hm tx.txIns st ∅ [] hne hin,
      insGo_spent_removed mOk tx b op hm tx.txIns st ∅ [] hinv hin,
      insGo_emits mOk tx b op hm tx.txIns st ∅ [] (fun c _ hc => by cases hc) hin,
      insGo_none_state mOk tx tx.txIns st ∅ []⟩

/-- C2 witness: with `op0` watched by client 1 (mirror entry in place) and a
block containing a transaction spending `op0`, the one-shot facts hold. -/
theorem notifyspent_one_shot_witness :
    (notifyForTxIns marshalAlwaysOk dupRegState spendTx
        (some demoBlock)).1.watchedOutPoints.lookup op0 = none ∧
    (∀ c, op0 ∉ (notifyForTxIns marshalAlwaysOk dupRegState spendTx
        (some demoBlock)).1.spentRequests c) ∧
    (∀ c, c ∈ opClientsOf dupRegState op0 →
      (c, newRedeemingTxNtfn spendTx.hex spendTx.index (some demoBlock))
        ∈ (notifyForTxIns marshalAlwaysOk dupRegState spendTx (some demoBlock)).2) ∧
    (notifyForTxIns marshalAlwaysOk dupRegState spendTx none).1 = dupRegState :=
  notifyspent_one_shot marshalAlwaysOk dupRegState spendTx demoBlock op0
    (by
      intro o s h
      by_cases ho : o = op0
      · subst ho
        rw [show dupRegState.watchedOutPoints
            = (∅ : Finmap fun _ : OutPoint => Finset ClientId).insert op0 {1} from rfl,
          Finmap.lookup_insert] at h
        cases h
        decide
      · rw [show dupRegState.watchedOutPoints
            = (∅ : Finmap fun _ : OutPoint => Finset ClientId).insert op0 {1} from rfl,
          Finmap.lookup_insert_of_ne _ ho, Finmap.lookup_empty] at h
        cases h)
    (by
      intro c hc
      by_cases h1 : c = 1
      · subst h1
        show (1 : ClientId) ∈ opClientsOf dupRegState op0
        rw [opClientsOf, show dupRegState.watchedOutPoints
            = (∅ : Finmap fun _ : OutPoint => Finset ClientId).insert op0 {1} from rfl,
          Finmap.lookup_insert]
        decide
      · exfalso
        have : dupRegState.spentRequests c = ∅ := by
          show (if c = 1 then ({op0} : Finset OutPoint) else ∅) = ∅
          rw [if_neg h1]
        rw [this] at hc
        cases hc)
    (by decide)
    rfl

/-! ## Per-transaction deduplication (C6) -/

/-- Appending the fresh-client notifications of one matched input/output
preserves the per-client counting invariant of the dedup loop. -/
theorem freshStep_count (cmap notified : Finset ClientId) (n : Ntfn) (c : ClientId)
    (acc : List (ClientId × Ntfn))
    (h1 : acc.countP (fun p => p.1 == c) ≤ 1)
    (h2 : c ∉ notified → acc.countP (fun p => p.1 == c) = 0) :
    (acc ++ (freshClients cmap notified).map (fun x => (x, n))).countP
        (fun p => p.1 == c) ≤ 1 ∧
    (c ∉ notified ∪ cmap →
      (acc ++ (freshClients cmap notified).map (fun x => (x, n))).countP
          (fun p => p.1 == c) = 0) := by
  have hfreshN : (freshClients cmap notified).Nodup :=
    (Finset.sort_nodup _ cmap).filter _
  have hmapcount : ((freshClients cmap notified).map (fun x => (x, n))).countP
      (fun p => p.1 == c) = (freshClients cmap notified).count c := by
    rw [List.countP_map]
    rfl
  constructor
  · rw [List.countP_append, hmapcount]
    by_cases hn : c ∈ notified
    · have hnf : c ∉ freshClients cmap notified := fun hc =>
        ((mem_freshClients _ _ _).mp hc).2 hn
      rw [List.count_eq_zero.mpr hnf]
      omega
    · have hle := List.nodup_iff_count_le_one.mp hfreshN c
      have := h2 hn
      omega
  · intro hnu
    have hn : c ∉ notified := fun h => hnu (Finset.mem_union_left _ h)
    have hcm : c ∉ cmap := fun h => hnu (Finset.mem_union_right _ h)
    have hnf : c ∉ freshClients cmap notified := fun hc =>
      hcm ((mem_freshClients _ _ _).mp hc).1
    rw [List.countP_append, hmapcount, h2 hn, List.count_eq_zero.mpr hnf]

/-- Every notification emitted by `notifyForTxIns`' loop is the
transaction's `redeemingtx` notification. -/
theorem insGo_shape (mOk : MarshalOk) (tx : Tx) (blk : Option Block) :
    ∀ (L : List TxIn) (st : RouterState) (notified : Finset ClientId)
      (acc : List (ClientId × Ntfn)),
      (∀ x ∈ acc, x.2 = newRedeemingTxNtfn tx.hex tx.index blk) →
      ∀ x ∈ (notifyForTxInsGo mOk tx blk L st notified acc).2.2,
        x.2 = newRedeemingTxNtfn tx.hex tx.index blk := by
  intro L
  induction L with
  | nil => intro st notified acc h; exact h
  | cons txIn rest ih =>
    intro st notified acc h
    rcases hl : st.watchedOutPoints.lookup txIn.previousOutPoint with _ | cmap
    · simp only [notifyForTxInsGo, hl]
      exact ih _ _ _ h
    · cases hm : mOk (newRedeemingTxNtfn tx.hex tx.index blk) with
      | false =>
        simp only [notifyForTxInsGo, hl, hm, Bool.false_eq_true, if_false]
        exact ih _ _ _ h
      | true =>
        simp only [notifyForTxInsGo, hl, hm, if_true]
        refine ih _ _ _ ?_
        intro x hx
        rcases List.mem_append.mp hx with hx | hx
        · exact h x hx
        · obtain ⟨cc, _, rfl⟩ := List.mem_map.mp hx
          rfl

/-- The counting invariant through `notifyForTxIns`' loop: at most one
emission per client, none for clients outside the dedup set. -/
theorem insGo_countP (mOk : MarshalOk) (tx : Tx) (blk : Option Block) (c : ClientId) :
    ∀ (L : List TxIn) (st : RouterState) (notified : Finset ClientId)
      (acc : List (ClientId × Ntfn)),
      acc.countP (fun p => p.1 == c) ≤ 1 →
      (c ∉ notified → acc.countP (fun p => p.1 == c) = 0) →
      (notifyForTxInsGo mOk tx blk L st notified acc).2.2.countP
          (fun p => p.1 == c) ≤ 1 := by
  intro L
  induction L with
  | nil => intro st notified acc h1 h2; exact h1
  | cons txIn rest ih =>
    intro st notified acc h1 h2
    rcases hl : st.watchedOutPoints.lookup txIn.previousOutPoint with _ | cmap
    · simp only [notifyForTxInsGo, hl]
      exact ih _ _ _ h1 h2
    · cases hm : mOk (newRedeemingTxNtfn tx.hex tx.index blk) with
      | false =>
        simp only [notifyForTxInsGo, hl, hm, Bool.false_eq_true, if_false]
        exact ih _ _ _ h1 h2
      | true =>
        simp only [notifyForTxInsGo, hl, hm, if_true]
        obtain ⟨g1, g2⟩ := freshStep_count cmap notified
          (newRedeemingTxNtfn tx.hex tx.index blk) c acc h1 h2
        exact ih _ _ _ g1 g2

/-- Every notification emitted by `notifyForTxOuts`' address loop is the
transaction's `recvtx` notification. -/
theorem outAddrsGo_shape (mOk : MarshalOk) (tx : Tx) (blk : Option Block) (i : Nat) :
    ∀ (L : List Address) (st : RouterState) (notified : Finset ClientId)
      (acc : List (ClientId × Ntfn)),
      (∀ x ∈ acc, x.2 = Ntfn.recvTx tx.hex (blockDetails blk tx.index)) →
      ∀ x ∈ (notifyOutAddrsGo mOk tx blk i L st notified acc).2.2,
        x.2 = Ntfn.recvTx tx.hex (blockDetails blk tx.index) := by
  intro L
  induction L with
  | nil => intro st notified acc h; exact h
  | cons addr rest ih =>
    intro st notified acc h
    rcases hl : st.watchedAddrs.lookup addr.encoded with _ | cmap
    · simp only [notifyOutAddrsGo, hl]
      exact ih _ _ _ h
    · cases hm : mOk (Ntfn.recvTx tx.hex (blockDetails blk tx.index)) with
      | false =>
        simp only [notifyOutAddrsGo, hl, hm, Bool.false_eq_true, if_false]
        exact ih _ _ _ h
      | true =>
        simp only [notifyOutAddrsGo, hl, hm, if_true]
        refine ih _ _ _ ?_
        intro x hx
        rcases List.mem_append.mp hx with hx | hx
        · exact h x hx
        · obtain ⟨cc, _, rfl⟩ := List.mem_map.mp hx
          rfl

/-- The counting invariant through `notifyForTxOuts`' address loop,
preserved to the resulting dedup set and accumulator. -/
theorem outAddrsGo_countP (mOk : MarshalOk) (tx : Tx) (blk : Option Block) (i : Nat)
    (c : ClientId) :
    ∀ (L : List Address) (st : RouterState) (notified : Finset ClientId)
      (acc : List (ClientId × Ntfn)),
      acc.countP (fun p => p.1 == c) ≤ 1 →
      (c ∉ notified → acc.countP (fun p => p.1 == c) = 0) →
      (notifyOutAddrsGo mOk tx blk i L st notified acc).2.2.countP
          (fun p => p.1 == c) ≤ 1 ∧
      (c ∉ (notifyOutAddrsGo mOk tx blk i L st notified acc).2.1 →
        (notifyOutAddrsGo mOk tx blk i L st notified acc).2.2.countP
            (fun p => p.1 == c) = 0) := by
  intro L
  induction L with
  | nil => intro st notified acc h1 h2; exact ⟨h1, h2⟩
  | cons addr rest ih =>
    intro st notified acc h1 h2
    rcases hl : st.watchedAddrs.lookup addr.encoded with _ | cmap
    · simp only [notifyOutAddrsGo, hl]
      exact ih _ _ _ h1 h2
    · cases hm : mOk (Ntfn.recvTx tx.hex (blockDetails blk tx.index)) with
      | false =>
        simp only [notifyOutAddrsGo, hl, hm, Bool.false_eq_true, if_false]
        exact ih _ _ _ h1 h2
      | true =>
        simp only [notifyOutAddrsGo, hl, hm, if_true]
        obtain ⟨g1, g2⟩ := freshStep_count cmap notified
          (Ntfn.recvTx tx.hex (blockDetails blk tx.index)) c acc h1 h2
        exact ih _ _ _ g1 g2

/-- Every notification emitted by `notifyForTxOuts`' output loop is the
transaction's `recvtx` notification. -/
theorem outsGo_shape (mOk : MarshalOk) (tx : Tx) (blk : Option Block) :
    ∀ (L : List (Nat × TxOut)) (st : RouterState) (notified : Finset ClientId)
      (acc : List (ClientId × Ntfn)),
      (∀ x ∈ acc, x.2 = Ntfn.recvTx tx.hex (blockDetails blk tx.index)) →
      ∀ x ∈ (notifyForTxOutsGo mOk tx blk L st notified acc).2.2,
        x.2 = Ntfn.recvTx tx.hex (blockDetails blk tx.index) := by
  intro L
  induction L with
  | nil => intro st notified acc h; exact h
  | cons p rest ih =>
    obtain ⟨i, txOut⟩ := p
    intro st notified acc h
    cases he : txOut.extractErr with
    | true =>
      simp only [notifyForTxOutsGo, he, if_true]
      exact ih _ _ _ h
    | false =>
      simp only [notifyForTxOutsGo, he, Bool.false_eq_true, if_false]
      exact ih _ _ _ (outAddrsGo_shape mOk tx blk i txOut.addrs st notified acc h)

/-- The counting invariant through `notifyForTxOuts`' output loop. -/
theorem outsGo_countP (mOk : MarshalOk) (tx : Tx) (blk : Option Block) (c : ClientId) :
    ∀ (L : List (Nat × TxOut)) (st : RouterState) (notified : Finset ClientId)
      (acc : List (ClientId × Ntfn)),
      acc.countP (fun p => p.1 == c) ≤ 1 →
      (c ∉ notified → acc.countP (fun p => p.1 == c) = 0) →
      (notifyForTxOutsGo mOk tx blk L st notified acc).2.2.countP
          (fun p => p.1 == c) ≤ 1 := by
  intro L
  induction L with
  | nil => intro st notified acc h1 h2; exact h1
  | cons p rest ih =>
    obtain ⟨i, txOut⟩ := p
    intro st notified acc h1 h2
    cases he : txOut.extractErr with
    | true =>
      simp only [notifyForTxOutsGo, he, if_true]
      exact ih _ _ _ h1 h2
    | false =>
      simp only [notifyForTxOutsGo, he, Bool.false_eq_true, if_false]
      obtain ⟨g1, g2⟩ := outAddrsGo_countP mOk tx blk i c txOut.addrs st notified acc h1 h2
      exact ih _ _ _ g1 g2

/-- `notifyForTxIns` emits only the transaction's `redeemingtx`
notification, at most once per client. -/
theorem notifyForTxIns_emission (mOk : MarshalOk) (st : RouterState) (tx : Tx)
    (blk : Option Block) (c : ClientId) :
    (∀ x ∈ (notifyForTxIns mOk st tx blk).2,
      x.2 = newRedeemingTxNtfn tx.hex tx.index blk) ∧
    (notifyForTxIns mOk st tx blk).2.countP (fun p => p.1 == c) ≤ 1 := by
  unfold notifyForTxIns
  by_cases hz : st.watchedOutPoints = ∅
  · rw [if_pos hz]
    exact ⟨fun x hx => absurd hx (List.not_mem_nil x), by simp⟩
  · rw [if_neg hz]
    exact ⟨insGo_shape mOk tx blk tx.txIns st ∅ []
        (fun x hx => absurd hx (List.not_mem_nil x)),
      insGo_countP mOk tx blk c tx.txIns st ∅ [] (by simp) (fun _ => by simp)⟩

/-- `notifyForTxOuts` emits only the transaction's `recvtx` notification,
at most once per client. -/
theorem notifyForTxOuts_emission (mOk : MarshalOk) (st : RouterState) (tx : Tx)
    (blk : Option Block) (c : ClientId) :
    (∀ x ∈ (notifyForTxOuts mOk st tx blk).2,
      x.2 = Ntfn.recvTx tx.hex (blockDetails blk tx.index)) ∧
    (notifyForTxOuts mOk st tx blk).2.countP (fun p => p.1 == c) ≤ 1 := by
  unfold notifyForTxOuts
  by_cases hz : st.watchedAddrs = ∅
  · rw [if_pos hz]
    exact ⟨fun x hx => absurd hx (List.not_mem_nil x), by simp⟩
  · rw [if_neg hz]
    exact ⟨outsGo_shape mOk tx blk tx.txOuts.enum st ∅ []
        (fun x hx => absurd hx (List.not_mem_nil x)),
      outsGo_countP mOk tx blk c tx.txOuts.enum st ∅ [] (by simp) (fun _ => by simp)⟩

/-- C6: during the router's handling of one transaction event
(`notifyForTx`), each client receives at most one `recvtx` notification and
at most one `redeemingtx` notification for that transaction, even when
multiple inputs reference watched outpoints or multiple outputs pay
watched addresses for that client. -/
theorem tx_event_dedup (mOk : MarshalOk) (st : RouterState) (tx : Tx)
    (blk : Option Block) (c : ClientId) :
    (notifyForTx mOk st tx blk).2.countP
        (fun p => p.1 == c && p.2.isRecvB) ≤ 1 ∧
    (notifyForTx mOk st tx blk).2.countP
        (fun p => p.1 == c && p.2.isRedeemB) ≤ 1 := by
  have hmonoRecv : ∀ es : List (ClientId × Ntfn),
      es.countP (fun p => p.1 == c && p.2.isRecvB)
        ≤ es.countP (fun p => p.1 == c) :=
    fun es => List.countP_mono_left
      (fun a _ h => ((Bool.and_eq_true _ _).mp h).1)
  have hmonoRedeem : ∀ es : List (ClientId × Ntfn),
      es.countP (fun p => p.1 == c && p.2.isRedeemB)
        ≤ es.countP (fun p => p.1 == c) :=
    fun es => List.countP_mono_left
      (fun a _ h => ((Bool.and_eq_true _ _).mp h).1)
  have hInsRecv0 : ∀ (s : RouterState),
      (notifyForTxIns mOk s tx blk).2.countP (fun p => p.1 == c && p.2.isRecvB) = 0 := by
    intro s
    refine List.countP_eq_zero.mpr ?_
    intro x hx
    rw [(notifyForTxIns_emission mOk s tx blk c).1 x hx]
    simp [newRedeemingTxNtfn, Ntfn.isRecvB]
  have hOutsRedeem0 : ∀ (s : RouterState),
      (notifyForTxOuts mOk s tx blk).2.countP (fun p => p.1 == c && p.2.isRedeemB) = 0 := by
    intro s
    refine List.countP_eq_zero.mpr ?_
    intro x hx
    rw [(notifyForTxOuts_emission mOk s tx blk c).1 x hx]
    simp [Ntfn.isRedeemB]
  unfold notifyForTx
  dsimp only
  by_cases h1 : st.watchedOutPoints ≠ ∅
  · rw [if_pos h1]
    by_cases h2 : (notifyForTxIns mOk st tx blk).1.watchedAddrs ≠ ∅
    · rw [if_pos h2]
      constructor
      · rw [List.countP_append]
        have a0 := hInsRecv0 st
        have b1 := hmonoRecv (notifyForTxOuts mOk (notifyForTxIns mOk st tx blk).1 tx blk).2
        have b2 := (notifyForTxOuts_emission mOk (notifyForTxIns mOk st tx blk).1 tx blk c).2
        omega
      · rw [List.countP_append]
        have b0 := hOutsRedeem0 (notifyForTxIns mOk st tx blk).1
        have a1 := hmonoRedeem (notifyForTxIns mOk st tx blk).2
        have a2 := (notifyForTxIns_emission mOk st tx blk c).2
        omega
    · rw [if_neg h2]
      constructor
      · rw [List.countP_append, List.countP_nil]
        have a0 := hInsRecv0 st
        omega
      · rw [List.countP_append, List.countP_nil]
        have a1 := hmonoRedeem (notifyForTxIns mOk st tx blk).2
        have a2 := (notifyForTxIns_emission mOk st tx blk c).2
        omega
  · rw [if_neg h1]
    by_cases h2 : (st, ([] : List (ClientId × Ntfn))).1.watchedAddrs ≠ ∅
    · rw [if_pos h2]
      constructor
      · rw [List.countP_append]
        have b1 := hmonoRecv (notifyForTxOuts mOk st tx blk).2
        have b2 := (notifyForTxOuts_emission mOk st tx blk c).2
        simp only [List.countP_nil]
        omega
      · rw [List.countP_append]
        have b0 := hOutsRedeem0 st
        simp only [List.countP_nil]
        omega
    · rw [if_neg h2]
      constructor <;> simp

/-! ## The mirror invariant (C3) -/

/-- The watcher set of each outpoint after `addSpentRequest`. -/
theorem addSpentRequest_opClients (st : RouterState) (c0 : ClientId) (op0 op : OutPoint) :
    opClientsOf (addSpentRequest st c0 op0) op
      = if op = op0 then insert c0 (opClientsOf st op0) else opClientsOf st op := by
  rw [addSpentRequest_eq]
  simp only [opClientsOf]
  by_cases ho : op = op0
  · subst ho
    rw [if_pos rfl, Finmap.lookup_insert]
    rfl
  · rw [if_neg ho, Finmap.lookup_insert_of_ne _ ho]

/-- The mirror set of each client after `addSpentRequest`. -/
theorem addSpentRequest_spent (st : RouterState) (c0 : ClientId) (op0 : OutPoint)
    (c : ClientId) :
    (addSpentRequest st c0 op0).spentRequests c
      = if c = c0 then insert op0 (st.spentRequests c0) else st.spentRequests c := by
  rw [addSpentRequest_eq]
  dsimp only
  by_cases hc : c = c0
  · subst hc
    rw [if_pos rfl, Function.update_same]
  · rw [if_neg hc, Function.update_noteq hc]

/-- The watcher set of each outpoint after `removeSpentRequest`. -/
theorem removeSpentRequest_opClients (st : RouterState) (c0 : ClientId) (op0 op : OutPoint) :
    opClientsOf (removeSpentRequest st c0 op0).1 op
      = if op = op0 then (opClientsOf st op0).erase c0 else opClientsOf st op := by
  simp only [opClientsOf]
  rw [removeSpentRequest_lookup]
  by_cases ho : op = op0
  · rw [if_pos ho, if_pos ho]
    rcases hl : st.watchedOutPoints.lookup op0 with _ | s
    · simp [hl]
    · dsimp only
      by_cases he : s.erase c0 = ∅
      · rw [if_pos he]
        simp [hl, he]
      · rw [if_neg he]
        simp [hl]
  · rw [if_neg ho, if_neg ho]

/-- The mirror set of each client after `removeSpentRequest`. -/
theorem removeSpentRequest_spent (st : RouterState) (c0 : ClientId) (op0 : OutPoint)
    (c : ClientId) :
    (removeSpentRequest st c0 op0).1.spentRequests c
      = if c = c0 then (st.spentRequests c0).erase op0 else st.spentRequests c := by
  rw [(removeSpentRequest_fields st c0 op0).2.2.2.2.2.2]
  by_cases hc : c = c0
  · subst hc
    rw [if_pos rfl, Function.update_same]
  · rw [if_neg hc, Function.update_noteq hc]

/-- The watcher set of each address after `addAddrRequest`. -/
theorem addAddrRequest_addrClients (st : RouterState) (c0 : ClientId) (a0 a : String) :
    addrClientsOf (addAddrRequest st c0 a0) a
      = if a = a0 then insert c0 (addrClientsOf st a0) else addrClientsOf st a := by
  rw [addAddrRequest_eq]
  simp only [addrClientsOf]
  by_cases ho : a = a0
  · subst ho
    rw [if_pos rfl, Finmap.lookup_insert]
    rfl
  · rw [if_neg ho, Finmap.lookup_insert_of_ne _ ho]

/-- The mirror set of each client after `addAddrRequest`. -/
theorem addAddrRequest_addrs (st : RouterState) (c0 : ClientId) (a0 : String)
    (c : ClientId) :
    (addAddrRequest st c0 a0).addrRequests c
      = if c = c0 then insert a0 (st.addrRequests c0) else st.addrRequests c := by
  rw [addAddrRequest_eq]
  dsimp only
  by_cases hc : c = c0
  · subst hc
    rw [if_pos rfl, Function.update_same]
  · rw [if_neg hc, Function.update_noteq hc]

/-- The watcher set of each address after `removeAddrRequest`. -/
theorem removeAddrRequest_addrClients (st : RouterState) (c0 : ClientId) (a0 a : String) :
    addrClientsOf (removeAddrRequest st c0 a0).1 a
      = if a = a0 then (addrClientsOf st a0).erase c0 else addrClientsOf st a := by
  simp only [addrClientsOf]
  rw [removeAddrRequest_lookup]
  by_cases ho : a = a0
  · rw [if_pos ho, if_pos ho]
    rcases hl : st.watchedAddrs.lookup a0 with _ | s
    · simp [hl]
    · dsimp only
      by_cases he : s.erase c0 = ∅
      · rw [if_pos he]
        simp [hl, he]
      · rw [if_neg he]
        simp [hl]
  · rw [if_neg ho, if_neg ho]

/-- The mirror set of each client after `removeAddrRequest`. -/
theorem removeAddrRequest_addrs (st : RouterState) (c0 : ClientId) (a0 : String)
    (c : ClientId) :
    (removeAddrRequest st c0 a0).1.addrRequests c
      = if c = c0 then (st.addrRequests c0).erase a0 else st.addrRequests c := by
  rw [(removeAddrRequest_fields st c0 a0).2.2.2.2.2.2]
  by_cases hc : c = c0
  · subst hc
    rw [if_pos rfl, Function.update_same]
  · rw [if_neg hc, Function.update_noteq hc]

/-- `addSpentRequest` preserves the mirror invariant. -/
theorem mirrorInv_addSpentRequest (st : RouterState) (c0 : ClientId) (op0 : OutPoint)
    (h : MirrorInv st) : MirrorInv (addSpentRequest st c0 op0) := by
  constructor
  · intro c op
    rw [addSpentRequest_spent, addSpentRequest_opClients]
    by_cases hc : c = c0 <;> by_cases ho : op = op0 <;>
      simp [hc, ho, Finset.mem_insert, h.1 c op, h.1 c0 op, h.1 c op0]
  · intro c a
    have halter : (addSpentRequest st c0 op0).addrRequests = st.addrRequests := by
      rw [addSpentRequest_eq]
    have halter2 : addrClientsOf (addSpentRequest st c0 op0) a = addrClientsOf st a := by
      rw [addSpentRequest_eq]
      simp only [addrClientsOf]
    rw [halter, halter2]
    exact h.2 c a

/-- `removeSpentRequest` preserves the mirror invariant. -/
theorem mirrorInv_removeSpentRequest (st : RouterState) (c0 : ClientId) (op0 : OutPoint)
    (h : MirrorInv st) : MirrorInv (removeSpentRequest st c0 op0).1 := by
  constructor
  · intro c op
    rw [removeSpentRequest_spent, removeSpentRequest_opClients]
    by_cases hc : c = c0 <;> by_cases ho : op = op0 <;>
      simp [hc, ho, Finset.mem_erase, h.1 c op, h.1 c0 op, h.1 c op0]
  · intro c a
    have h1 : (removeSpentRequest st c0 op0).1.addrRequests = st.addrRequests :=
      (removeSpentRequest_fields st c0 op0).2.2.2.2.1
    have h2 : addrClientsOf (removeSpentRequest st c0 op0).1 a = addrClientsOf st a := by
      simp only [addrClientsOf]
      rw [(removeSpentRequest_fields st c0 op0).2.2.2.1]
    rw [h1, h2]
    exact h.2 c a

/-- `addAddrRequest` preserves the mirror invariant. -/
theorem mirrorInv_addAddrRequest (st : RouterState) (c0 : ClientId) (a0 : String)
    (h : MirrorInv st) : MirrorInv (addAddrRequest st c0 a0) := by
  constructor
  · intro c op
    have h1 : (addAddrRequest st c0 a0).spentRequests = st.spentRequests := by
      rw [addAddrRequest_eq]
    have h2 : opClientsOf (addAddrRequest st c0 a0) op = opClientsOf st op := by
      rw [addAddrRequest_eq]
      simp only [opClientsOf]
    rw [h1, h2]
    exact h.1 c op
  · intro c a
    rw [addAddrRequest_addrs, addAddrRequest_addrClients]
    by_cases hc : c = c0 <;> by_cases ho : a = a0 <;>
      simp [hc, ho, Finset.mem_insert, h.2 c a, h.2 c0 a, h.2 c a0]

/-- `removeAddrRequest` preserves the mirror invariant. -/
theorem mirrorInv_removeAddrRequest (st : RouterState) (c0 : ClientId) (a0 : String)
    (h : MirrorInv st) : MirrorInv (removeAddrRequest st c0 a0).1 := by
  constructor
  · intro c op
    have h1 : (removeAddrRequest st c0 a0).1.spentRequests = st.spentRequests :=
      (removeAddrRequest_fields st c0 a0).2.2.2.2.1
    have h2 : opClientsOf (removeAddrRequest st c0 a0).1 op = opClientsOf st op := by
      simp only [opClientsOf]
      rw [(removeAddrRequest_fields st c0 a0).2.2.2.1]
    rw [h1, h2]
    exact h.1 c op
  · intro c a
    rw [removeAddrRequest_addrs, removeAddrRequest_addrClients]
    by_cases hc : c = c0 <;> by_cases ho : a = a0 <;>
      simp [hc, ho, Finset.mem_erase, h.2 c a, h.2 c0 a, h.2 c a0]

/-- Folding an invariant-preserving step preserves the invariant. -/
theorem foldl_preserve {σ α : Type*} (P : σ → Prop) (f : σ → α → σ)
    (hf : ∀ s a, P s → P (f s a)) :
    ∀ (l : List α) (s : σ), P s → P (l.foldl f s) := by
  intro l
  induction l with
  | nil => intro s hs; exact hs
  | cons a rest ih => intro s hs; exact ih _ (hf s a hs)

/-- `notifyForTxIns`' loop preserves the mirror invariant. -/
theorem mirrorInv_insGo (mOk : MarshalOk) (tx : Tx) (blk : Option Block) :
    ∀ (L : List TxIn) (st : RouterState) (notified : Finset ClientId)
      (acc : List (ClientId × Ntfn)),
      MirrorInv st → MirrorInv (notifyForTxInsGo mOk tx blk L st notified acc).1 := by
  intro L
  induction L with
  | nil => intro st notified acc h; exact h
  | cons txIn rest ih =>
    intro st notified acc h
    rcases hl : st.watchedOutPoints.lookup txIn.previousOutPoint with _ | cmap
    · simp only [notifyForTxInsGo, hl]
      exact ih _ _ _ h
    · cases hm : mOk (newRedeemingTxNtfn tx.hex tx.index blk) with
      | false =>
        simp only [notifyForTxInsGo, hl, hm, Bool.false_eq_true, if_false]
        exact ih _ _ _ h
      | true =>
        simp only [notifyForTxInsGo, hl, hm, if_true]
        refine ih _ _ _ ?_
        cases blk with
        | none =>
          simp only [Option.isSome_none, Bool.false_eq_true, if_false]
          exact h
        | some b =>
          simp only [Option.isSome_some, if_true]
          exact foldl_preserve MirrorInv _
            (fun s c hs => mirrorInv_removeSpentRequest s c _ hs) _ st h

/-- `notifyForTxOuts`' address loop preserves the mirror invariant. -/
theorem mirrorInv_outAddrsGo (mOk : MarshalOk) (tx : Tx) (blk : Option Block) (i : Nat) :
    ∀ (L : List Address) (st : RouterState) (notified : Finset ClientId)
      (acc : List (ClientId × Ntfn)),
      MirrorInv st → MirrorInv (notifyOutAddrsGo mOk tx blk i L st notified acc).1 := by
  intro L
  induction L with
  | nil => intro st notified acc h; exact h
  | cons addr rest ih =>
    intro st notified acc h
    rcases hl : st.watchedAddrs.lookup addr.encoded with _ | cmap
    · simp only [notifyOutAddrsGo, hl]
      exact ih _ _ _ h
    · cases hm : mOk (Ntfn.recvTx tx.hex (blockDetails blk tx.index)) with
      | false =>
        simp only [notifyOutAddrsGo, hl, hm, Bool.false_eq_true, if_false]
        exact ih _ _ _ h
      | true =>
        simp only [notifyOutAddrsGo, hl, hm, if_true]
        exact ih _ _ _ (foldl_preserve MirrorInv _
          (fun s c hs => mirrorInv_addSpentRequest s c _ hs) _ st h)

/-- `notifyForTxOuts`' output loop preserves the mirror invariant. -/
theorem mirrorInv_outsGo (mOk : MarshalOk) (tx : Tx) (blk : Option Block) :
    ∀ (L : List (Nat × TxOut)) (st : RouterState) (notified : Finset ClientId)
      (acc : List (ClientId × Ntfn)),
      MirrorInv st → MirrorInv (notifyForTxOutsGo mOk tx blk L st notified acc).1 := by
  intro L
  induction L with
  | nil => intro st notified acc h; exact h
  | cons p rest ih =>
    obtain ⟨i, txOut⟩ := p
    intro st notified acc h
    cases he : txOut.extractErr with
    | true =>
      simp only [notifyForTxOutsGo, he, if_true]
      exact ih _ _ _ h
    | false =>
      simp only [notifyForTxOutsGo, he, Bool.false_eq_true, if_false]
      exact ih _ _ _ (mirrorInv_outAddrsGo mOk tx blk i txOut.addrs st notified acc h)

/-- `notifyForTxIns` preserves the mirror invariant. -/
theorem mirrorInv_notifyForTxIns (mOk : MarshalOk) (st : RouterState) (tx : Tx)
    (blk : Option Block) (h : MirrorInv st) :
    MirrorInv (notifyForTxIns mOk st tx blk).1 := by
  unfold notifyForTxIns
  by_cases hz : st.watchedOutPoints = ∅
  · rw [if_pos hz]; exact h
  · rw [if_neg hz]; exact mirrorInv_insGo mOk tx blk tx.txIns st ∅ [] h

/-- `notifyForTxOuts` preserves the mirror invariant. -/
theorem mirrorInv_notifyForTxOuts (mOk : MarshalOk) (st : RouterState) (tx : Tx)
    (blk : Option Block) (h : MirrorInv st) :
    MirrorInv (notifyForTxOuts mOk st tx blk).1 := by
  unfold notifyForTxOuts
  by_cases hz : st.watchedAddrs = ∅
  · rw [if_pos hz]; exact h
  · rw [if_neg hz]; exact mirrorInv_outsGo mOk tx blk tx.txOuts.enum st ∅ [] h

/-- `notifyForTx` preserves the mirror invariant. -/
theorem mirrorInv_notifyForTx (mOk : MarshalOk) (st : RouterState) (tx : Tx)
    (blk : Option Block) (h : MirrorInv st) :
    MirrorInv (notifyForTx mOk st tx blk).1 := by
  unfold notifyForTx
  dsimp only
  by_cases h1c : st.watchedOutPoints ≠ ∅
  · rw [if_pos h1c]
    split
    · exact mirrorInv_notifyForTxOuts mOk _ tx blk
        (mirrorInv_notifyForTxIns mOk st tx blk h)
    · exact mirrorInv_notifyForTxIns mOk st tx blk h
  · rw [if_neg h1c]
    split
    · exact mirrorInv_notifyForTxOuts mOk _ tx blk h
    · exact h

/-- C3: the mirror invariant holds between router messages — every
register, unregister, client-unregister and event-scan step of
`notificationHandler` preserves it: for every client `c` and key, the key
is in the client's mirror set iff the client is in the key's watcher set,
for outpoints and addresses alike. -/
theorem mirror_invariant_preserved (rawOk : Bool) (mOk : MarshalOk) (msg : RouterMsg)
    (st : RouterState) (h : MirrorInv st) :
    MirrorInv (handleMsg rawOk mOk msg st).1 := by
  cases msg with
  | blockConnected blk =>
    simp only [handleMsg]
    by_cases hc : st.watchedOutPoints ≠ ∅ ∨ st.watchedAddrs ≠ ∅
    · rw [if_pos hc]
      have hfold : MirrorInv
          (blk.txs.foldl (fun (p : RouterState × List (ClientId × Ntfn)) tx =>
            ((notifyForTx mOk p.1 tx (some blk)).1,
              p.2 ++ (notifyForTx mOk p.1 tx (some blk)).2)) (st, [])).1 :=
        foldl_preserve (fun p : RouterState × List (ClientId × Ntfn) => MirrorInv p.1)
          (fun p tx =>
            ((notifyForTx mOk p.1 tx (some blk)).1,
              p.2 ++ (notifyForTx mOk p.1 tx (some blk)).2))
          (fun p tx hp => mirrorInv_notifyForTx mOk p.1 tx (some blk) hp)
          blk.txs (st, []) h
      split
      · exact hfold
      · exact hfold
    · rw [if_neg hc]
      split
      · exact h
      · exact h
  | blockDisconnected blk => exact h
  | txAcceptedByMempool isNew tx =>
    exact mirrorInv_notifyForTx mOk st tx none h
  | registerBlocks c => exact h
  | unregisterBlocks c => exact h
  | registerClient c => exact h
  | unregisterClient c =>
    simp only [handleMsg]
    exact foldl_preserve MirrorInv (fun s a => (removeAddrRequest s c a).1)
      (fun s a hs => mirrorInv_removeAddrRequest s c a hs) _ _
      (foldl_preserve MirrorInv (fun s op => (removeSpentRequest s c op).1)
        (fun s op hs => mirrorInv_removeSpentRequest s c op hs) _ _ h)
  | registerSpent c ops =>
    exact foldl_preserve MirrorInv (fun s op => addSpentRequest s c op)
      (fun s op hs => mirrorInv_addSpentRequest s c op hs) ops st h
  | unregisterSpent c op => exact mirrorInv_removeSpentRequest st c op h
  | registerAddr c addrs =>
    exact foldl_preserve MirrorInv (fun s a => addAddrRequest s c a)
      (fun s a hs => mirrorInv_addAddrRequest s c a hs) addrs st h
  | unregisterAddr c addr => exact mirrorInv_removeAddrRequest st c addr h
  | registerNewMempoolTxs c => exact h
  | unregisterNewMempoolTxs c => exact h

/-- C3 witness: one register-spent step from the empty router state keeps
the mirror invariant. -/
theorem mirror_invariant_preserved_witness :
    MirrorInv (handleMsg true marshalAlwaysOk (RouterMsg.registerSpent 1 [op0])
      emptyRouter).1 :=
  mirror_invariant_preserved true marshalAlwaysOk (RouterMsg.registerSpent 1 [op0])
    emptyRouter
    ⟨fun c op => by simp [emptyRouter, opClientsOf, Finmap.lookup_empty],
     fun c a => by simp [emptyRouter, addrClientsOf, Finmap.lookup_empty]⟩

end Stcd
